import Mathlib

/-!
# Mach pipe transport of frida-core (`lib/pipe/pipe-mach.c`)

A shallow embedding of the endpoint negotiator and of the pipe backend
(address parsing, close, read path, write path), followed by the theorems
that settle the properties stated for them.

Conventions of the embedding.

* `kern_return_t` is `Int`; port names (`mach_port_name_t`, 32 bit unsigned)
  are `Nat`, reduced `% 2 ^ 32` where the C arithmetic can wrap.
* The constants and structure sizes of the Mach headers are not part of the
  repository: they are the fields of `Mach`, a parameter of every function.
* The kernel is the environment.  Results of kernel calls are inputs of the
  functions (oracles), and the calls a function issues are returned as a
  list of `KernelCall`, in program order.
* A heap block is the value stored in it; a pointer that may be `NULL` is an
  `Option`; `rx_buffer_cur` is an offset into the payload of `rx_buffer`.
-/

namespace FridaPipe

/-! ## The Mach environment -/

/-- Values that `<mach/mach.h>` provides to `pipe-mach.c`: constants, structure
sizes, the `MACH_MSGH_BITS` macro, and the port name of the calling task. -/
structure Mach where
  MACH_PORT_NULL : Nat
  KERN_NAME_EXISTS : Int
  KERN_FAILURE : Int
  MACH_RCV_TOO_LARGE : Int
  MACH_MSG_TYPE_MAKE_SEND : Nat
  MACH_MSG_TYPE_COPY_SEND : Nat
  MACH_MSG_TYPE_MAKE_SEND_ONCE : Nat
  MACH_MSGH_BITS : Nat → Nat → Nat
  sizeof_mach_msg_header_t : Nat
  sizeof_mach_msg_trailer_t : Nat
  mach_task_self : Nat

/-- The values of the Darwin headers, used to evaluate the model. -/
def darwin : Mach where
  MACH_PORT_NULL := 0
  KERN_NAME_EXISTS := 13
  KERN_FAILURE := 5
  MACH_RCV_TOO_LARGE := 0x10004004
  MACH_MSG_TYPE_MAKE_SEND := 20
  MACH_MSG_TYPE_COPY_SEND := 19
  MACH_MSG_TYPE_MAKE_SEND_ONCE := 21
  MACH_MSGH_BITS := fun remote loc => remote + loc * 256
  sizeof_mach_msg_header_t := 24
  sizeof_mach_msg_trailer_t := 8
  mach_task_self := 0x103

/-- Type `mach_msg_header_t`. -/
structure mach_msg_header_t where
  msgh_bits : Nat
  msgh_size : Nat
  msgh_remote_port : Nat
  msgh_local_port : Nat
  msgh_reserved : Nat
  msgh_id : Int
  deriving DecidableEq, Repr

/-- Type `struct _ZedPipeMessage`: the header, the explicit payload size and
the bytes that follow the fixed part in the same heap block. -/
structure FridaPipeMessage where
  header : mach_msg_header_t
  size : Nat
  payload : List Nat
  deriving DecidableEq, Repr

/-- Value of `sizeof (FridaPipeMessage)`: the header and one `guint`; the
flexible `payload[0]` member has size zero. -/
def sizeof_FridaPipeMessage (K : Mach) : Nat :=
  K.sizeof_mach_msg_header_t + 4

/-- Value of `sizeof (mach_msg_empty_rcv_t)`: a header followed by a trailer. -/
def sizeof_mach_msg_empty_rcv_t (K : Mach) : Nat :=
  K.sizeof_mach_msg_header_t + K.sizeof_mach_msg_trailer_t

/-- The two kinds of port right the file releases
(`MACH_PORT_RIGHT_SEND`, `MACH_PORT_RIGHT_RECEIVE`). -/
inductive PortRight where
  | send
  | receive
  deriving DecidableEq, Repr

/-- A call into the kernel (or into libdispatch), with its arguments. -/
inductive KernelCall where
  | mach_port_mod_refs (task name : Nat) (right : PortRight) (delta : Int)
  | mach_port_deallocate (task name : Nat)
  | mach_port_insert_right (task name poly : Nat)
  | mach_msg_send (msg : FridaPipeMessage)
  | mach_msg_receive (rcv_size rcv_name : Nat)
  | dispatch_release (object : Nat)
  deriving DecidableEq, Repr

/-- What `g_set_error` / `g_cancellable_set_error_if_cancelled` store:
`G_IO_ERROR_FAILED` with the message "<operation> failed: ... (<status>)", or
`G_IO_ERROR_CANCELLED`. -/
inductive GError where
  | failed (operation : String) (status : Int)
  | cancelled
  deriving DecidableEq, Repr

/-- Type `struct _ZedPipeBackend`. -/
structure FridaPipeBackend where
  dispatch_queue : Nat
  rx_port : Nat
  tx_port : Nat
  rx_buffer : Option FridaPipeMessage
  rx_buffer_cur : Option Nat
  rx_buffer_length : Nat
  monitor_source : Option Nat
  deriving DecidableEq, Repr

/-! ## Write path -/

/-- Result of `_frida_pipe_output_stream_write`. -/
structure WriteResult where
  n : Int
  error : Option GError
  calls : List KernelCall
  deriving DecidableEq, Repr

/-- The message `_frida_pipe_output_stream_write` builds for `buffer`
(`buffer_length` is `buffer.length`).  `msg_size` is a `guint`; `& ~3` clears
the two low bits.  `g_malloc` does not initialise the block: `heap i` is the
byte found at payload offset `i`, and `memcpy` overwrites the first
`buffer_length` of them. -/
def write_message (K : Mach) (backend : FridaPipeBackend) (buffer : List Nat)
    (heap : Nat → Nat) : FridaPipeMessage :=
  let msg_size := ((sizeof_FridaPipeMessage K + buffer.length + 3) / 4 * 4) % 2 ^ 32
  { header :=
      { msgh_bits := K.MACH_MSGH_BITS K.MACH_MSG_TYPE_COPY_SEND 0
        msgh_size := msg_size
        msgh_remote_port := backend.tx_port
        msgh_local_port := K.MACH_PORT_NULL
        msgh_reserved := 0
        msgh_id := 1 }
    size := buffer.length % 2 ^ 32
    payload :=
      buffer ++ (List.range (msg_size - sizeof_FridaPipeMessage K - buffer.length)).map
        (fun i => heap (buffer.length + i)) }

/-- Function `_frida_pipe_output_stream_write`.  `mach_msg_send` is the
kernel: it maps the message handed to it to the status it returns. -/
def _frida_pipe_output_stream_write (K : Mach) (backend : FridaPipeBackend)
    (buffer : List Nat) (heap : Nat → Nat) (mach_msg_send : FridaPipeMessage → Int) :
    WriteResult :=
  let msg := write_message K backend buffer heap
  let ret := mach_msg_send msg
  if ret ≠ 0 then
    { n := 0, error := some (GError.failed "mach_msg_send" ret),
      calls := [KernelCall.mach_msg_send msg] }
  else
    { n := (buffer.length : Int), error := none, calls := [KernelCall.mach_msg_send msg] }

/-! ## Close -/

/-- Result of `frida_pipe_backend_close_ports` and of `_frida_pipe_close`:
the `gboolean`, what `g_set_error` stored, the backend afterwards, and the
calls issued. -/
structure CloseResult where
  ok : Bool
  error : Option GError
  backend : FridaPipeBackend
  calls : List KernelCall
  deriving DecidableEq, Repr

/-- Function `frida_pipe_backend_demonitor`. -/
def frida_pipe_backend_demonitor (self : FridaPipeBackend) :
    FridaPipeBackend × List KernelCall :=
  match self.monitor_source with
  | some source => ({ self with monitor_source := none }, [KernelCall.dispatch_release source])
  | none => (self, [])

/-- Function `frida_pipe_backend_close_ports`.  `mach_port_mod_refs name right`
is the status the kernel returns for the release of `right` on `name`. -/
def frida_pipe_backend_close_ports (K : Mach) (self : FridaPipeBackend)
    (mach_port_mod_refs : Nat → PortRight → Int) : CloseResult :=
  let tx_step : Int × FridaPipeBackend × List KernelCall :=
    if self.tx_port ≠ K.MACH_PORT_NULL then
      (mach_port_mod_refs self.tx_port PortRight.send,
        { self with tx_port := K.MACH_PORT_NULL },
        [KernelCall.mach_port_mod_refs K.mach_task_self self.tx_port PortRight.send (-1)])
    else (0, self, [])
  let ret_tx := tx_step.1
  let self1 := tx_step.2.1
  let rx_step : Int × FridaPipeBackend × List KernelCall :=
    if self1.rx_port ≠ K.MACH_PORT_NULL then
      (mach_port_mod_refs self1.rx_port PortRight.receive,
        { self1 with rx_port := K.MACH_PORT_NULL },
        [KernelCall.mach_port_mod_refs K.mach_task_self self1.rx_port PortRight.receive (-1)])
    else (0, self1, [])
  let ret_rx := rx_step.1
  let self2 := rx_step.2.1
  let ret := if ret_tx ≠ 0 then ret_tx else ret_rx
  if ret ≠ 0 then
    { ok := false, error := some (GError.failed "mach_port_mod_refs" ret), backend := self2,
      calls := tx_step.2.2 ++ rx_step.2.2 }
  else
    { ok := true, error := none, backend := self2, calls := tx_step.2.2 ++ rx_step.2.2 }

/-- Function `_frida_pipe_close`. -/
def _frida_pipe_close (K : Mach) (backend : FridaPipeBackend)
    (mach_port_mod_refs : Nat → PortRight → Int) : CloseResult :=
  let d := frida_pipe_backend_demonitor backend
  let r := frida_pipe_backend_close_ports K d.1 mach_port_mod_refs
  { r with calls := d.2 ++ r.calls }

/-- Function `frida_pipe_backend_on_tx_port_dead`: the close-ports logic with a
`NULL` error location; the `gboolean` is dropped. -/
def frida_pipe_backend_on_tx_port_dead (K : Mach) (backend : FridaPipeBackend)
    (mach_port_mod_refs : Nat → PortRight → Int) : FridaPipeBackend × List KernelCall :=
  let r := frida_pipe_backend_close_ports K backend mach_port_mod_refs
  (r.backend, r.calls)

/-! ## Read path -/

/-- A `GCancellable`, observed through `g_cancellable_is_cancelled`.  The token
does not change state while one read runs. -/
structure GCancellable where
  cancelled : Bool
  deriving DecidableEq, Repr

/-- One answer of the kernel to a `mach_msg` receive: the status returned and
the contents of the receive buffer after the call. -/
abbrev Receive := Int × FridaPipeMessage

/-- Result of `_frida_pipe_input_stream_read`.  `n` is `none` when the call does
not return (it stays blocked in `mach_msg`); `data` is what `memcpy` stored
in the caller's buffer; `mailbox` is what the kernel still has to answer. -/
structure ReadResult where
  n : Option Int
  data : List Nat
  error : Option GError
  backend : FridaPipeBackend
  mailbox : List Receive
  calls : List KernelCall
  deriving DecidableEq, Repr

/-- The message `frida_pipe_input_stream_on_cancel` sends to the backend's own
receive port. -/
def cancel_message (K : Mach) (backend : FridaPipeBackend) : FridaPipeMessage :=
  { header :=
      { msgh_bits := K.MACH_MSGH_BITS K.MACH_MSG_TYPE_MAKE_SEND_ONCE 0
        msgh_size := sizeof_FridaPipeMessage K
        msgh_remote_port := backend.rx_port
        msgh_local_port := K.MACH_PORT_NULL
        msgh_reserved := 0
        msgh_id := 2 }
    size := 0
    payload := [] }

/-- Function `frida_pipe_input_stream_on_cancel`. -/
def frida_pipe_input_stream_on_cancel (K : Mach) (backend : FridaPipeBackend) :
    List KernelCall :=
  [KernelCall.mach_msg_send (cancel_message K backend)]

/-- Call `g_cancellable_connect`: the callback runs at once when the token is
already cancelled. -/
def g_cancellable_connect (K : Mach) (backend : FridaPipeBackend)
    (cancellable : Option GCancellable) : List KernelCall :=
  match cancellable with
  | some c => if c.cancelled then frida_pipe_input_stream_on_cancel K backend else []
  | none => []

/-- The `do ... while (ret == MACH_RCV_TOO_LARGE)` loop of the read path.  Each
iteration is one `mach_msg` receive, answered by the head of `mailbox`; after
"too large" the next buffer size is the reported message size plus a trailer
(`rcv_size` is 32 bit).  With no answer left the receive blocks. -/
def receive_loop (K : Mach) (rx_port : Nat) :
    Nat → List Receive → List KernelCall × Option (Receive × List Receive)
  | msg_size, [] => ([KernelCall.mach_msg_receive (msg_size % 2 ^ 32) rx_port], none)
  | msg_size, (ret, msg) :: rest =>
    if ret = K.MACH_RCV_TOO_LARGE then
      let r := receive_loop K rx_port (msg.header.msgh_size + K.sizeof_mach_msg_trailer_t) rest
      (KernelCall.mach_msg_receive (msg_size % 2 ^ 32) rx_port :: r.1, r.2)
    else
      ([KernelCall.mach_msg_receive (msg_size % 2 ^ 32) rx_port], some ((ret, msg), rest))

/-- The tail of `_frida_pipe_input_stream_read`, from `n = MIN (...)` to
`return n`.  `buffer_length` is an `int` and `rx_buffer_length` a `guint`, so
`MIN` compares them as unsigned 32 bit values. -/
def read_copy (backend : FridaPipeBackend) (buffer_length : Int) (mailbox : List Receive)
    (calls : List KernelCall) : ReadResult :=
  let a := (buffer_length % 2 ^ 32).toNat
  let n := if a < backend.rx_buffer_length then a else backend.rx_buffer_length
  let data :=
    match backend.rx_buffer, backend.rx_buffer_cur with
    | some msg, some cur => (msg.payload.drop cur).take n
    | _, _ => []
  let backend1 :=
    { backend with
      rx_buffer_cur := backend.rx_buffer_cur.map (fun cur => cur + n)
      rx_buffer_length := backend.rx_buffer_length - n }
  let backend2 :=
    if backend1.rx_buffer_length = 0 then
      { backend1 with rx_buffer := none, rx_buffer_cur := none, rx_buffer_length := 0 }
    else backend1
  { n := some (n : Int), data := data, error := none, backend := backend2,
    mailbox := mailbox, calls := calls }

/-- Function `_frida_pipe_input_stream_read`. -/
def _frida_pipe_input_stream_read (K : Mach) (backend : FridaPipeBackend)
    (buffer_length : Int) (cancellable : Option GCancellable) (mailbox : List Receive) :
    ReadResult :=
  match backend.rx_buffer with
  | none =>
    let connect := g_cancellable_connect K backend cancellable
    let r := receive_loop K backend.rx_port (sizeof_mach_msg_empty_rcv_t K) mailbox
    match r.2 with
    | none =>
      { n := none, data := [], error := none, backend := backend, mailbox := [],
        calls := connect ++ r.1 }
    | some ((ret, msg), rest) =>
      if ret ≠ 0 then
        { n := some 0, data := [], error := some (GError.failed "mach_msg" ret),
          backend := backend, mailbox := rest, calls := connect ++ r.1 }
      else
        let backend1 :=
          if msg.header.msgh_id = 1 then
            { backend with
              rx_buffer := some msg, rx_buffer_cur := some 0, rx_buffer_length := msg.size }
          else backend
        if cancellable.any (fun c => c.cancelled) then
          { n := some (-1), data := [], error := some GError.cancelled, backend := backend1,
            mailbox := rest, calls := connect ++ r.1 }
        else
          read_copy backend1 buffer_length rest (connect ++ r.1)
  | some _ => read_copy backend buffer_length mailbox []

/-- The first `count` of a series of reads with the same `max_length` and
token: the values returned and the chunks stored, in order, then the state
reached. -/
def read_repeat (K : Mach) (buffer_length : Int) (cancellable : Option GCancellable) :
    Nat → FridaPipeBackend → List Receive →
      List (Option Int × List Nat) × FridaPipeBackend × List Receive
  | 0, backend, mailbox => ([], backend, mailbox)
  | count + 1, backend, mailbox =>
    let r := _frida_pipe_input_stream_read K backend buffer_length cancellable mailbox
    let rs := read_repeat K buffer_length cancellable count r.backend r.mailbox
    ((r.n, r.data) :: rs.1, rs.2)

/-! ## Address strings: `printf` and `sscanf` with `%d` -/

/-- Reading of a 32 bit pattern as an `int` (two's complement). -/
@[irreducible]
def to_int32 (v : Int) : Int :=
  (v + 2 ^ 31) % 2 ^ 32 - 2 ^ 31

/-- Conversion of an `int` to a 32 bit unsigned value. -/
@[irreducible]
def to_uint32 (v : Int) : Nat :=
  (v % 2 ^ 32).toNat

/-- The character of a decimal digit. -/
def digit_char (d : Nat) : Char :=
  Char.ofNat (48 + d)

/-- The decimal digits of a natural number, most significant first. -/
def decimal (n : Nat) : List Char :=
  if n < 10 then [digit_char n] else decimal (n / 10) ++ [digit_char (n % 10)]
decreasing_by omega

/-- Conversion `%d` of `printf`, for an `int` argument. -/
def printf_d (v : Int) : List Char :=
  if v < 0 then '-' :: decimal v.natAbs else decimal v.natAbs

/-- The call `g_strdup_printf ("pipe:rx=%d,tx=%d", rx, tx)` on two port names:
`%d` reads each 32 bit argument as an `int`. -/
def format_address (rx tx : Nat) : String :=
  String.mk ("pipe:rx=".data ++ printf_d (to_int32 rx) ++ ",tx=".data ++ printf_d (to_int32 tx))

/-- Predicate `isdigit` of the C locale. -/
def isdigit (c : Char) : Bool :=
  decide (48 ≤ c.toNat ∧ c.toNat ≤ 57)

/-- Predicate `isspace` of the C locale. -/
def isspace (c : Char) : Bool :=
  decide (c.toNat = 32 ∨ (9 ≤ c.toNat ∧ c.toNat ≤ 13))

/-- Why a `sscanf` directive stops the scan. -/
inductive ScanFailure where
  | input_failure
  | matching_failure
  deriving DecidableEq, Repr

/-- Matching of ordinary (non-space) characters of a `sscanf` format against
the input. -/
def scan_literal : List Char → List Char → Except ScanFailure (List Char)
  | [], input => Except.ok input
  | _ :: _, [] => Except.error ScanFailure.input_failure
  | f :: fs, c :: cs =>
    if f = c then scan_literal fs cs else Except.error ScanFailure.matching_failure

/-- The longest run of decimal digits at the head of the input, accumulated
onto `acc`, and the input that follows it. -/
def scan_digits : List Char → Nat → Nat × List Char
  | [], acc => (acc, [])
  | c :: cs, acc =>
    if isdigit c then scan_digits cs (acc * 10 + (c.toNat - 48)) else (acc, c :: cs)

/-- Leading white space is skipped by `%d`. -/
def skip_space : List Char → List Char
  | [] => []
  | c :: cs => if isspace c then skip_space cs else c :: cs

/-- Conversion `%d` of `sscanf`: white space, an optional sign, at least one
digit.  The value is stored in an `int`. -/
def scan_d (input : List Char) : Except ScanFailure (Int × List Char) :=
  match skip_space input with
  | [] => Except.error ScanFailure.input_failure
  | c :: cs =>
    let negative := decide (c = '-')
    let body := if c = '-' ∨ c = '+' then cs else c :: cs
    match body with
    | [] => Except.error ScanFailure.input_failure
    | d :: ds =>
      if isdigit d then
        let r := scan_digits (d :: ds) 0
        Except.ok (to_int32 (if negative then -(r.1 : Int) else (r.1 : Int)), r.2)
      else Except.error ScanFailure.matching_failure

/-- The call `sscanf (address, "pipe:rx=%d,tx=%d", &rx, &tx)`: the number of
fields assigned (`EOF` is `-1`) and the values of `rx` and `tx`, `none` while
not assigned. -/
def sscanf_address (address : String) : Int × Option Int × Option Int :=
  match scan_literal "pipe:rx=".data address.data with
  | Except.error ScanFailure.input_failure => (-1, none, none)
  | Except.error ScanFailure.matching_failure => (0, none, none)
  | Except.ok rest1 =>
    match scan_d rest1 with
    | Except.error ScanFailure.input_failure => (-1, none, none)
    | Except.error ScanFailure.matching_failure => (0, none, none)
    | Except.ok (rx, rest2) =>
      match scan_literal ",tx=".data rest2 with
      | Except.error _ => (1, some rx, none)
      | Except.ok rest3 =>
        match scan_d rest3 with
        | Except.error _ => (1, some rx, none)
        | Except.ok (tx, _) => (2, some rx, some tx)

/-- Function `_frida_pipe_create_backend`.  `queue` and `source` are the
handles `dispatch_queue_create` and `dispatch_source_create` return.  The
result is `none` when `g_assert_cmpint (assigned, ==, 2)` aborts. -/
def _frida_pipe_create_backend (address : String) (queue source : Nat) :
    Option FridaPipeBackend :=
  match sscanf_address address with
  | (assigned, some rx, some tx) =>
    if assigned = 2 then
      some
        { dispatch_queue := queue
          rx_port := to_uint32 rx
          tx_port := to_uint32 tx
          rx_buffer := none
          rx_buffer_cur := none
          rx_buffer_length := 0
          monitor_source := some source }
    else none
  | _ => none

/-! ## Endpoint negotiation -/

/-- Type `struct _ZedPipeTransportBackend`. -/
structure FridaPipeTransportBackend where
  task : Nat
  local_rx : Nat
  local_tx : Nat
  remote_rx : Nat
  remote_tx : Nat
  deriving DecidableEq, Repr

/-- What the kernel answers during one negotiation: for each call site the
status and the name written through the out parameter (written only when the
status is 0), and for `mach_port_insert_right` the status per candidate name. -/
structure NegotiationKernel where
  task_for_pid : Int × Nat
  mach_port_allocate_local_rx : Int × Nat
  mach_port_allocate_remote_rx : Int × Nat
  mach_port_extract_right : Int × Nat
  mach_port_insert_right : Nat → Int

/-- Result of `_frida_pipe_transport_create_backend`: the backend (`none` is
`NULL`), the two addresses, the error, the release calls issued, and the
fields of the backend when the function left its body (before the teardown
on the failure path). -/
structure TransportResult where
  backend : Option FridaPipeTransportBackend
  local_address : Option String
  remote_address : Option String
  error : Option GError
  calls : List KernelCall
  state : FridaPipeTransportBackend
  deriving DecidableEq, Repr

/-- Function `_frida_pipe_transport_destroy_backend`: the calls it issues. -/
def _frida_pipe_transport_destroy_backend (K : Mach) (backend : FridaPipeTransportBackend) :
    List KernelCall :=
  (if backend.remote_tx ≠ K.MACH_PORT_NULL then
    [KernelCall.mach_port_mod_refs backend.task backend.remote_tx PortRight.send (-1)] else []) ++
  (if backend.local_tx ≠ K.MACH_PORT_NULL then
    [KernelCall.mach_port_mod_refs K.mach_task_self backend.local_tx PortRight.send (-1)]
    else []) ++
  (if backend.remote_rx ≠ K.MACH_PORT_NULL then
    [KernelCall.mach_port_mod_refs backend.task backend.remote_rx PortRight.receive (-1)]
    else []) ++
  (if backend.local_rx ≠ K.MACH_PORT_NULL then
    [KernelCall.mach_port_mod_refs K.mach_task_self backend.local_rx PortRight.receive (-1)]
    else []) ++
  (if backend.task ≠ K.MACH_PORT_NULL then
    [KernelCall.mach_port_deallocate K.mach_task_self backend.task] else [])

/-- The `do ... while` loop that inserts the send right: entered with the
current value of `remote_tx`, it returns the final `remote_tx`, the last
status, and the names probed, in order. -/
def insert_right_loop (K : Mach) (mach_port_insert_right : Nat → Int) (remote_tx : Nat) :
    Nat × Int × List Nat :=
  let remote_tx1 := (remote_tx + 1) % 2 ^ 32
  let ret := mach_port_insert_right remote_tx1
  if (ret = K.KERN_NAME_EXISTS ∨ ret = K.KERN_FAILURE) ∧ remote_tx1 < 0xffffffff then
    let r := insert_right_loop K mach_port_insert_right remote_tx1
    (r.1, r.2.1, remote_tx1 :: r.2.2)
  else (remote_tx1, ret, [remote_tx1])
termination_by 2 ^ 32 - (remote_tx + 1) % 2 ^ 32
decreasing_by omega

/-- The label `handle_mach_error`. -/
def handle_mach_error (K : Mach) (backend : FridaPipeTransportBackend)
    (failed_operation : String) (ret : Int) (calls : List KernelCall) : TransportResult :=
  { backend := none, local_address := none, remote_address := none,
    error := some (GError.failed failed_operation ret),
    calls := calls ++ _frida_pipe_transport_destroy_backend K backend,
    state := backend }

/-- Function `_frida_pipe_transport_create_backend`.  The five fields of the
backend are followed as the variables `task`, `local_rx`, `remote_rx`,
`local_tx` and `remote_tx`; a field not yet assigned is `MACH_PORT_NULL`. -/
def _frida_pipe_transport_create_backend (K : Mach) (kernel : NegotiationKernel) :
    TransportResult :=
  let null := K.MACH_PORT_NULL
  let ret1 := kernel.task_for_pid.1
  let task := if ret1 = 0 then kernel.task_for_pid.2 else null
  if ret1 ≠ 0 then
    handle_mach_error K
      { task := task, local_rx := null, local_tx := null, remote_rx := null, remote_tx := null }
      "task_for_pid" ret1 []
  else
  let ret2 := kernel.mach_port_allocate_local_rx.1
  let local_rx := if ret2 = 0 then kernel.mach_port_allocate_local_rx.2 else null
  if ret2 ≠ 0 then
    handle_mach_error K
      { task := task, local_rx := local_rx, local_tx := null, remote_rx := null,
        remote_tx := null }
      "mach_port_allocate local_rx" ret2 []
  else
  let ret3 := kernel.mach_port_allocate_remote_rx.1
  let remote_rx := if ret3 = 0 then kernel.mach_port_allocate_remote_rx.2 else null
  if ret3 ≠ 0 then
    handle_mach_error K
      { task := task, local_rx := local_rx, local_tx := null, remote_rx := remote_rx,
        remote_tx := null }
      "mach_port_allocate remote_rx" ret3 []
  else
  let ret4 := kernel.mach_port_extract_right.1
  let local_tx := if ret4 = 0 then kernel.mach_port_extract_right.2 else null
  if ret4 ≠ 0 then
    handle_mach_error K
      { task := task, local_rx := local_rx, local_tx := local_tx, remote_rx := remote_rx,
        remote_tx := null }
      "mach_port_extract_right local_tx" ret4 []
  else
  let loop := insert_right_loop K kernel.mach_port_insert_right
    ((local_rx + 2 ^ 32 - 1) % 2 ^ 32)
  let backend : FridaPipeTransportBackend :=
    { task := task, local_rx := local_rx, local_tx := local_tx, remote_rx := remote_rx,
      remote_tx := loop.1 }
  let probes := loop.2.2.map (fun name => KernelCall.mach_port_insert_right task name local_rx)
  if loop.2.1 ≠ 0 then
    handle_mach_error K backend "mach_port_insert_right remote_tx" loop.2.1 probes
  else
    { backend := some backend
      local_address := some (format_address local_rx local_tx)
      remote_address := some (format_address remote_rx loop.1)
      error := none
      calls := probes
      state := backend }

/-! ## Example states used to evaluate the model -/

/-- A freshly opened backend on ports 0x1503 / 0x1603 with a live monitor. -/
def example_backend : FridaPipeBackend :=
  { dispatch_queue := 1, rx_port := 0x1503, tx_port := 0x1603, rx_buffer := none,
    rx_buffer_cur := none, rx_buffer_length := 0, monitor_source := some 7 }

/-- A negotiation in which the remote names 0x2003 and 0x2004 are taken. -/
def example_kernel_collision : NegotiationKernel :=
  { task_for_pid := (0, 0x1a03)
    mach_port_allocate_local_rx := (0, 0x2003)
    mach_port_allocate_remote_rx := (0, 0x3003)
    mach_port_extract_right := (0, 0x4003)
    mach_port_insert_right := fun name => if name < 0x2005 then 13 else 0 }

/-- A negotiation in which the insertion fails at once with status 16
(`KERN_INVALID_TASK`). -/
def example_kernel_insert_fails : NegotiationKernel :=
  { task_for_pid := (0, 0x1a03)
    mach_port_allocate_local_rx := (0, 0x2003)
    mach_port_allocate_remote_rx := (0, 0x3003)
    mach_port_extract_right := (0, 0x4003)
    mach_port_insert_right := fun _ => 16 }

/-- A negotiation whose local send right gets a name above `2 ^ 31`. -/
def example_kernel_high_name : NegotiationKernel :=
  { task_for_pid := (0, 0x1a03)
    mach_port_allocate_local_rx := (0, 0x2003)
    mach_port_allocate_remote_rx := (0, 0x3003)
    mach_port_extract_right := (0, 0x80000003)
    mach_port_insert_right := fun _ => 0 }

/-- The address as the specification words it: both fields in unsigned
decimal. -/
def spec_address_unsigned (rx tx : Nat) : String :=
  String.mk ("pipe:rx=".data ++ decimal rx ++ ",tx=".data ++ decimal tx)

/-- The input that may follow a number: nothing, or a character that is not
a digit. -/
def no_digit_ahead (rest : List Char) : Prop :=
  ∀ c ∈ rest.head?, isdigit c = false

/-- A backend holding `msg` as its pending buffer, with the cursor at payload
offset `cur` and `remaining` bytes left; the other fields are those of
`backend`. -/
def with_pending (backend : FridaPipeBackend) (msg : FridaPipeMessage) (cur remaining : Nat) :
    FridaPipeBackend :=
  { dispatch_queue := backend.dispatch_queue
    rx_port := backend.rx_port
    tx_port := backend.tx_port
    rx_buffer := some msg
    rx_buffer_cur := some cur
    rx_buffer_length := remaining
    monitor_source := backend.monitor_source }

/-- A backend with no pending buffer; the other fields are those of
`backend`. -/
def without_pending (backend : FridaPipeBackend) : FridaPipeBackend :=
  { dispatch_queue := backend.dispatch_queue
    rx_port := backend.rx_port
    tx_port := backend.tx_port
    rx_buffer := none
    rx_buffer_cur := none
    rx_buffer_length := 0
    monitor_source := backend.monitor_source }

/-- A series of reads on one backend, each with its own `max_length` and
token: the result of every call, in order. -/
def read_series (K : Mach) :
    List (Int × Option GCancellable) → FridaPipeBackend → List Receive → List ReadResult
  | [], _, _ => []
  | (buffer_length, cancellable) :: calls, backend, mailbox =>
    let r := _frida_pipe_input_stream_read K backend buffer_length cancellable mailbox
    r :: read_series K calls r.backend r.mailbox

/-- The shapes of the pending-buffer fields between two reads: all three null,
or a buffer with a cursor into it. -/
def buffer_state_ok (backend : FridaPipeBackend) : Prop :=
  (backend.rx_buffer = none ∧ backend.rx_buffer_cur = none ∧ backend.rx_buffer_length = 0)
    ∨ (∃ msg cur, backend.rx_buffer = some msg ∧ backend.rx_buffer_cur = some cur)

/-- The datagram that a write of zero bytes on the example backend builds. -/
def zero_byte_frame : FridaPipeMessage :=
  write_message darwin example_backend [] (fun _ => 0)

/-- The outcome of a read that reports cancellation after having received a
data frame with a zero-byte payload: the frame is the pending buffer, with
nothing remaining. -/
def kept_zero_byte_frame (r : ReadResult) : Prop :=
  r.n = some (-1) ∧ r.error = some GError.cancelled
    ∧ (∃ size name, KernelCall.mach_msg_receive size name ∈ r.calls)
    ∧ ∃ msg : FridaPipeMessage, msg.header.msgh_id = 1 ∧ msg.size = 0
        ∧ r.backend.rx_buffer = some msg ∧ r.backend.rx_buffer_cur = some 0
        ∧ r.backend.rx_buffer_length = 0

/-- The `int` argument `buffer_length` as `MIN` compares it with the `guint`
`rx_buffer_length`: converted to unsigned 32 bit. -/
def as_guint (buffer_length : Int) : Nat :=
  (buffer_length % 2 ^ 32).toNat

/-- The bytes asked for by the first `j` calls of a series of reads. -/
def bytes_requested (calls : List (Int × Option GCancellable)) (j : Nat) : Nat :=
  ((calls.take j).map (fun call => as_guint call.1)).sum

/-- The datagram that a write of the six bytes 1 .. 6 on the example backend
builds. -/
def six_byte_frame : FridaPipeMessage :=
  write_message darwin example_backend [1, 2, 3, 4, 5, 6] (fun _ => 0)

/-- The datagram that a write of the two bytes 7, 8 on the example backend
builds. -/
def two_byte_frame : FridaPipeMessage :=
  write_message darwin example_backend [7, 8] (fun _ => 0)

/-- A frame that is neither a data frame nor the cancellation frame: its
identifier is 3 and it carries four payload bytes. -/
def other_frame : FridaPipeMessage :=
  { header :=
      { msgh_bits := darwin.MACH_MSGH_BITS darwin.MACH_MSG_TYPE_COPY_SEND 0
        msgh_size := 32
        msgh_remote_port := 0x1503
        msgh_local_port := 0
        msgh_reserved := 0
        msgh_id := 3 }
    size := 4
    payload := [1, 2, 3, 4] }

/-! ## Theorems -/

/-! ### Write path -/

/-- C7, as stated, fails: with an empty input and a send that fails with
status 5 the value returned is 0, which is the input length, so "returns n
if and only if the send returned 0" does not hold. -/
theorem write_returns_length_iff_send_ok_fails :
    ¬ ((_frida_pipe_output_stream_write darwin example_backend [] (fun _ => 0) (fun _ => 5)).n
          = (([] : List Nat).length : Int)
        ↔ (fun _ => (5 : Int)) (write_message darwin example_backend [] (fun _ => 0)) = 0) := by
  decide

/-- C7, amended: a write of `buffer` (length `n` below `2 ^ 31`) issues exactly
one send, of a message with identifier 1, size field `n`, first `n` payload
bytes equal to `buffer`, target `tx_port`, and a total size that is a multiple
of 4 in `[fixed + n, fixed + n + 4)`; it returns `n` with no error exactly
when the send returned 0, and otherwise returns 0 with an error carrying the
send status. -/
theorem write_contract (K : Mach) (backend : FridaPipeBackend) (buffer : List Nat)
    (heap : Nat → Nat) (mach_msg_send : FridaPipeMessage → Int)
    (hlen : buffer.length < 2 ^ 31) (hfixed : sizeof_FridaPipeMessage K + 4 ≤ 2 ^ 31) :
    let msg := write_message K backend buffer heap
    let r := _frida_pipe_output_stream_write K backend buffer heap mach_msg_send
    r.calls = [KernelCall.mach_msg_send msg]
      ∧ msg.header.msgh_id = 1
      ∧ msg.size = buffer.length
      ∧ msg.payload.take buffer.length = buffer
      ∧ msg.header.msgh_remote_port = backend.tx_port
      ∧ msg.header.msgh_size = (sizeof_FridaPipeMessage K + buffer.length + 3) / 4 * 4
      ∧ msg.header.msgh_size % 4 = 0
      ∧ sizeof_FridaPipeMessage K + buffer.length ≤ msg.header.msgh_size
      ∧ msg.header.msgh_size < sizeof_FridaPipeMessage K + buffer.length + 4
      ∧ ((r.n = (buffer.length : Int) ∧ r.error = none) ↔ mach_msg_send msg = 0)
      ∧ (mach_msg_send msg ≠ 0 →
          r.n = 0 ∧ r.error = some (GError.failed "mach_msg_send" (mach_msg_send msg))) := by
  intro msg r
  have hsz : msg.header.msgh_size = (sizeof_FridaPipeMessage K + buffer.length + 3) / 4 * 4 := by
    show ((sizeof_FridaPipeMessage K + buffer.length + 3) / 4 * 4) % 2 ^ 32 = _
    apply Nat.mod_eq_of_lt
    omega
  have hcalls : r.calls = [KernelCall.mach_msg_send msg] := by
    show (_frida_pipe_output_stream_write K backend buffer heap mach_msg_send).calls = _
    unfold _frida_pipe_output_stream_write
    simp only []
    split <;> rfl
  refine ⟨hcalls, rfl, ?_, ?_, rfl, hsz, ?_, ?_, ?_, ?_, ?_⟩
  · show buffer.length % 2 ^ 32 = buffer.length
    apply Nat.mod_eq_of_lt
    omega
  · show (buffer ++ _).take buffer.length = buffer
    simp
  · rw [hsz]; omega
  · rw [hsz]; omega
  · rw [hsz]; omega
  · show ((_frida_pipe_output_stream_write K backend buffer heap mach_msg_send).n = _ ∧
      (_frida_pipe_output_stream_write K backend buffer heap mach_msg_send).error = none) ↔ _
    unfold _frida_pipe_output_stream_write
    simp only []
    by_cases h : mach_msg_send (write_message K backend buffer heap) = 0
    · simp [h]
    · simp [h]
  · intro h
    show (_frida_pipe_output_stream_write K backend buffer heap mach_msg_send).n = 0 ∧
      (_frida_pipe_output_stream_write K backend buffer heap mach_msg_send).error = _
    unfold _frida_pipe_output_stream_write
    simp only []
    rw [if_pos h]
    exact ⟨rfl, rfl⟩

/-- Witness of `write_contract`: three bytes written on the example backend. -/
theorem write_contract_witness :
    let msg := write_message darwin example_backend [1, 2, 3] (fun _ => 0)
    let r := _frida_pipe_output_stream_write darwin example_backend [1, 2, 3] (fun _ => 0)
      (fun _ => 0)
    r.calls = [KernelCall.mach_msg_send msg]
      ∧ msg.header.msgh_id = 1
      ∧ msg.size = [1, 2, 3].length
      ∧ msg.payload.take [1, 2, 3].length = [1, 2, 3]
      ∧ msg.header.msgh_remote_port = example_backend.tx_port
      ∧ msg.header.msgh_size = (sizeof_FridaPipeMessage darwin + [1, 2, 3].length + 3) / 4 * 4
      ∧ msg.header.msgh_size % 4 = 0
      ∧ sizeof_FridaPipeMessage darwin + [1, 2, 3].length ≤ msg.header.msgh_size
      ∧ msg.header.msgh_size < sizeof_FridaPipeMessage darwin + [1, 2, 3].length + 4
      ∧ ((r.n = (([1, 2, 3] : List Nat).length : Int) ∧ r.error = none)
          ↔ (fun _ => (0 : Int)) msg = 0)
      ∧ ((fun _ => (0 : Int)) msg ≠ 0 →
          r.n = 0 ∧ r.error = some (GError.failed "mach_msg_send" ((fun _ => (0 : Int)) msg))) :=
  write_contract darwin example_backend [1, 2, 3] (fun _ => 0) (fun _ => 0)
    (by decide) (by decide)

/-! ### Close -/

/-- The close-ports logic on a backend whose two ports are already null issues
no call, changes nothing and reports success. -/
theorem close_ports_of_null (K : Mach) (self : FridaPipeBackend)
    (mach_port_mod_refs : Nat → PortRight → Int)
    (htx : self.tx_port = K.MACH_PORT_NULL) (hrx : self.rx_port = K.MACH_PORT_NULL) :
    frida_pipe_backend_close_ports K self mach_port_mod_refs
      = { ok := true, error := none, backend := self, calls := [] } := by
  simp [frida_pipe_backend_close_ports, htx, hrx]

/-- The close-ports logic always leaves both ports null and never touches the
other fields. -/
theorem close_ports_backend (K : Mach) (self : FridaPipeBackend)
    (mach_port_mod_refs : Nat → PortRight → Int) :
    (frida_pipe_backend_close_ports K self mach_port_mod_refs).backend
      = { self with tx_port := K.MACH_PORT_NULL, rx_port := K.MACH_PORT_NULL } := by
  obtain ⟨q, rx, tx, buf, cur, len, mon⟩ := self
  by_cases htx : tx = K.MACH_PORT_NULL <;> by_cases hrx : rx = K.MACH_PORT_NULL <;>
    simp [frida_pipe_backend_close_ports, htx, hrx, apply_ite CloseResult.backend]

/-- C6: with both ports non-null, `frida_pipe_backend_close_ports` issues the
release of the send right and then the release of the receive right whatever
either returns; it fails if and only if one of the two statuses is non-zero,
and reports the send-right status when that is non-zero, otherwise the
receive-right status. -/
theorem close_ports_partial_failure (K : Mach) (self : FridaPipeBackend)
    (mach_port_mod_refs : Nat → PortRight → Int)
    (htx : self.tx_port ≠ K.MACH_PORT_NULL) (hrx : self.rx_port ≠ K.MACH_PORT_NULL) :
    let r := frida_pipe_backend_close_ports K self mach_port_mod_refs
    let ret_tx := mach_port_mod_refs self.tx_port PortRight.send
    let ret_rx := mach_port_mod_refs self.rx_port PortRight.receive
    r.calls =
        [KernelCall.mach_port_mod_refs K.mach_task_self self.tx_port PortRight.send (-1),
         KernelCall.mach_port_mod_refs K.mach_task_self self.rx_port PortRight.receive (-1)]
      ∧ (r.ok = false ↔ (ret_tx ≠ 0 ∨ ret_rx ≠ 0))
      ∧ (ret_tx ≠ 0 → r.error = some (GError.failed "mach_port_mod_refs" ret_tx))
      ∧ (ret_tx = 0 → ret_rx ≠ 0 → r.error = some (GError.failed "mach_port_mod_refs" ret_rx))
      ∧ (ret_tx = 0 → ret_rx = 0 → r.error = none) := by
  intro r ret_tx ret_rx
  have hr : r = frida_pipe_backend_close_ports K self mach_port_mod_refs := rfl
  have h1 : ret_tx = mach_port_mod_refs self.tx_port PortRight.send := rfl
  have h2 : ret_rx = mach_port_mod_refs self.rx_port PortRight.receive := rfl
  simp only [frida_pipe_backend_close_ports, htx, hrx, ne_eq, not_false_eq_true, if_true,
    ← h1, ← h2] at hr
  by_cases a : ret_tx = 0 <;> by_cases b : ret_rx = 0 <;> simp [a, b] at hr <;>
    rw [hr] <;> simp [a, b]

/-- Witness of `close_ports_partial_failure`: the send-right release succeeds,
the receive-right release fails with status 15. -/
theorem close_ports_partial_failure_witness :
    let r := frida_pipe_backend_close_ports darwin example_backend
      (fun _ right => if right = PortRight.receive then 15 else 0)
    let ret_tx := (fun (_ : Nat) right => if right = PortRight.receive then (15 : Int) else 0)
      example_backend.tx_port PortRight.send
    let ret_rx := (fun (_ : Nat) right => if right = PortRight.receive then (15 : Int) else 0)
      example_backend.rx_port PortRight.receive
    r.calls =
        [KernelCall.mach_port_mod_refs darwin.mach_task_self example_backend.tx_port
           PortRight.send (-1),
         KernelCall.mach_port_mod_refs darwin.mach_task_self example_backend.rx_port
           PortRight.receive (-1)]
      ∧ (r.ok = false ↔ (ret_tx ≠ 0 ∨ ret_rx ≠ 0))
      ∧ (ret_tx ≠ 0 → r.error = some (GError.failed "mach_port_mod_refs" ret_tx))
      ∧ (ret_tx = 0 → ret_rx ≠ 0 → r.error = some (GError.failed "mach_port_mod_refs" ret_rx))
      ∧ (ret_tx = 0 → ret_rx = 0 → r.error = none) :=
  close_ports_partial_failure darwin example_backend
    (fun _ right => if right = PortRight.receive then 15 else 0) (by decide) (by decide)

/-- C5, as stated, fails for the peer-death callback: after
`frida_pipe_backend_on_tx_port_dead` the monitor handle is still set, and the
`_frida_pipe_close` that follows changes a field (it nulls the handle). -/
theorem close_after_peer_death_not_noop :
    ¬ (((frida_pipe_backend_on_tx_port_dead darwin example_backend (fun _ _ => 0)).1.monitor_source
          = none)
        ∨ ((_frida_pipe_close darwin
              (frida_pipe_backend_on_tx_port_dead darwin example_backend (fun _ _ => 0)).1
              (fun _ _ => 0)).backend
            = (frida_pipe_backend_on_tx_port_dead darwin example_backend (fun _ _ => 0)).1)) := by
  decide

/-- The calls of `_frida_pipe_close`: the release of the monitor handle when it
is set, then the calls of the close-ports logic. -/
theorem close_calls (K : Mach) (backend : FridaPipeBackend)
    (mach_port_mod_refs : Nat → PortRight → Int) :
    (_frida_pipe_close K backend mach_port_mod_refs).calls
      = (match backend.monitor_source with
          | some source => [KernelCall.dispatch_release source]
          | none => [])
        ++ ((if backend.tx_port ≠ K.MACH_PORT_NULL then
              [KernelCall.mach_port_mod_refs K.mach_task_self backend.tx_port PortRight.send (-1)]
            else [])
          ++ (if backend.rx_port ≠ K.MACH_PORT_NULL then
              [KernelCall.mach_port_mod_refs K.mach_task_self backend.rx_port PortRight.receive
                (-1)]
            else [])) := by
  obtain ⟨q, rx, tx, buf, cur, len, mon⟩ := backend
  cases mon <;> by_cases htx : tx = K.MACH_PORT_NULL <;> by_cases hrx : rx = K.MACH_PORT_NULL <;>
    simp [_frida_pipe_close, frida_pipe_backend_demonitor, frida_pipe_backend_close_ports, htx,
      hrx, apply_ite CloseResult.calls]

/-- The calls of `frida_pipe_backend_on_tx_port_dead`: the two port releases,
each when its port is set, and nothing else. -/
theorem on_tx_port_dead_calls (K : Mach) (backend : FridaPipeBackend)
    (mach_port_mod_refs : Nat → PortRight → Int) :
    (frida_pipe_backend_on_tx_port_dead K backend mach_port_mod_refs).2
      = (if backend.tx_port ≠ K.MACH_PORT_NULL then
            [KernelCall.mach_port_mod_refs K.mach_task_self backend.tx_port PortRight.send (-1)]
          else [])
        ++ (if backend.rx_port ≠ K.MACH_PORT_NULL then
            [KernelCall.mach_port_mod_refs K.mach_task_self backend.rx_port PortRight.receive
              (-1)]
          else []) := by
  obtain ⟨q, rx, tx, buf, cur, len, mon⟩ := backend
  by_cases htx : tx = K.MACH_PORT_NULL <;> by_cases hrx : rx = K.MACH_PORT_NULL <;>
    simp [frida_pipe_backend_on_tx_port_dead, frida_pipe_backend_close_ports, htx, hrx,
      apply_ite CloseResult.calls]

/-- C5, amended: for every backend and every outcome of the release calls, one
`_frida_pipe_close` releases the monitor handle when it is set
(`dispatch_release`), then the send right and the receive right when their
ports are set; afterwards both ports and the monitor handle are null, and a
second `_frida_pipe_close` issues no call, changes no field and returns
success.  `frida_pipe_backend_on_tx_port_dead` issues the two port releases and
no `dispatch_release`: after it both ports are null and the other fields (the
monitor handle among them) are unchanged; the `_frida_pipe_close` that follows
issues no port release, returns success, and changes only the monitor handle:
when the handle is set it issues exactly one `dispatch_release` on it and nulls
it, and when it is not set it issues no call. -/
theorem close_idempotent (K : Mach) (backend : FridaPipeBackend)
    (first second : Nat → PortRight → Int) :
    let c1 := _frida_pipe_close K backend first
    let c2 := _frida_pipe_close K c1.backend second
    let dead := frida_pipe_backend_on_tx_port_dead K backend first
    let c3 := _frida_pipe_close K dead.1 second
    (c1.backend.rx_port = K.MACH_PORT_NULL ∧ c1.backend.tx_port = K.MACH_PORT_NULL
        ∧ c1.backend.monitor_source = none)
      ∧ (c2.calls = [] ∧ c2.backend = c1.backend ∧ c2.ok = true ∧ c2.error = none)
      ∧ (dead.1 = { backend with tx_port := K.MACH_PORT_NULL, rx_port := K.MACH_PORT_NULL })
      ∧ ((∀ task name right delta,
            KernelCall.mach_port_mod_refs task name right delta ∉ c3.calls)
          ∧ c3.backend = { dead.1 with monitor_source := none }
          ∧ c3.ok = true ∧ c3.error = none)
      ∧ (c1.calls
          = (match backend.monitor_source with
              | some source => [KernelCall.dispatch_release source]
              | none => [])
            ++ ((if backend.tx_port ≠ K.MACH_PORT_NULL then
                  [KernelCall.mach_port_mod_refs K.mach_task_self backend.tx_port PortRight.send
                    (-1)]
                else [])
              ++ (if backend.rx_port ≠ K.MACH_PORT_NULL then
                  [KernelCall.mach_port_mod_refs K.mach_task_self backend.rx_port
                    PortRight.receive (-1)]
                else [])))
      ∧ (dead.2
          = (if backend.tx_port ≠ K.MACH_PORT_NULL then
                [KernelCall.mach_port_mod_refs K.mach_task_self backend.tx_port PortRight.send
                  (-1)]
              else [])
            ++ (if backend.rx_port ≠ K.MACH_PORT_NULL then
                [KernelCall.mach_port_mod_refs K.mach_task_self backend.rx_port
                  PortRight.receive (-1)]
              else []))
      ∧ (dead.1.monitor_source = backend.monitor_source)
      ∧ (c3.calls
          = (match backend.monitor_source with
              | some source => [KernelCall.dispatch_release source]
              | none => [])) := by
  intro c1 c2 dead c3
  have hc1 : c1.backend =
      { backend with
        tx_port := K.MACH_PORT_NULL, rx_port := K.MACH_PORT_NULL, monitor_source := none } := by
    show (_frida_pipe_close K backend first).backend = _
    simp only [_frida_pipe_close, close_ports_backend]
    unfold frida_pipe_backend_demonitor
    split <;> simp_all
  have hdead : dead.1 =
      { backend with tx_port := K.MACH_PORT_NULL, rx_port := K.MACH_PORT_NULL } := by
    show (frida_pipe_backend_on_tx_port_dead K backend first).1 = _
    simp only [frida_pipe_backend_on_tx_port_dead, close_ports_backend]
  have hc2 : c2 = { ok := true, error := none, backend := c1.backend, calls := [] } := by
    show _frida_pipe_close K c1.backend second = _
    rw [hc1]
    simp [_frida_pipe_close, frida_pipe_backend_demonitor, close_ports_of_null]
  have hc3 : c3 =
      { ok := true, error := none, backend := { dead.1 with monitor_source := none },
        calls := (frida_pipe_backend_demonitor dead.1).2 } := by
    show _frida_pipe_close K dead.1 second = _
    rw [hdead]
    cases hm : backend.monitor_source <;>
      simp [_frida_pipe_close, frida_pipe_backend_demonitor, close_ports_of_null, hm]
  have hc3calls : c3.calls
      = (match backend.monitor_source with
          | some source => [KernelCall.dispatch_release source]
          | none => []) := by
    show (_frida_pipe_close K dead.1 second).calls = _
    rw [close_calls, hdead]
    simp
  refine ⟨?_, ?_, hdead, ?_, close_calls K backend first,
    on_tx_port_dead_calls K backend first, by rw [hdead], hc3calls⟩
  · rw [hc1]; exact ⟨rfl, rfl, rfl⟩
  · rw [hc2]; exact ⟨rfl, rfl, rfl, rfl⟩
  · rw [hc3]
    refine ⟨?_, rfl, rfl, rfl⟩
    intro task name right delta
    show _ ∉ (frida_pipe_backend_demonitor dead.1).2
    unfold frida_pipe_backend_demonitor
    split <;> simp

/-! ### Negotiation -/

/-- The insertion loop, entered with `remote_tx = r0`: it probes the names
`c0, c0 + 1, ..., c0 + count` for `c0 = r0 + 1` (32 bit), every probe but the
last was answered "name exists" or "failure", and the last one either was
answered otherwise or is `0xffffffff`. -/
theorem insert_right_loop_spec (K : Mach) (ins : Nat → Int) (r0 : Nat) :
    ∃ count : Nat,
      (r0 + 1) % 2 ^ 32 + count < 2 ^ 32
      ∧ insert_right_loop K ins r0
          = ((r0 + 1) % 2 ^ 32 + count, ins ((r0 + 1) % 2 ^ 32 + count),
              List.range' ((r0 + 1) % 2 ^ 32) (count + 1))
      ∧ (∀ i, i < count →
          ins ((r0 + 1) % 2 ^ 32 + i) = K.KERN_NAME_EXISTS
            ∨ ins ((r0 + 1) % 2 ^ 32 + i) = K.KERN_FAILURE)
      ∧ (¬ (ins ((r0 + 1) % 2 ^ 32 + count) = K.KERN_NAME_EXISTS
              ∨ ins ((r0 + 1) % 2 ^ 32 + count) = K.KERN_FAILURE)
          ∨ (r0 + 1) % 2 ^ 32 + count = 0xffffffff) := by
  induction r0 using insert_right_loop.induct K ins with
  | case1 x remote_tx1 ret hcont ih =>
    obtain ⟨count, hlt, hloop, hretry, hstop⟩ := ih
    have hnext : (remote_tx1 + 1) % 2 ^ 32 = remote_tx1 + 1 := by
      apply Nat.mod_eq_of_lt
      have := hcont.2
      omega
    rw [hnext] at hlt hloop hretry hstop
    refine ⟨count + 1, ?_, ?_, ?_, ?_⟩
    · show remote_tx1 + (count + 1) < 2 ^ 32
      omega
    · rw [insert_right_loop]
      show (if (ret = K.KERN_NAME_EXISTS ∨ ret = K.KERN_FAILURE) ∧ remote_tx1 < 0xffffffff then _
        else _) = _
      rw [if_pos hcont, hloop]
      show (remote_tx1 + 1 + count, ins (remote_tx1 + 1 + count),
        remote_tx1 :: List.range' (remote_tx1 + 1) (count + 1)) = _
      have e : remote_tx1 + 1 + count = remote_tx1 + (count + 1) := by omega
      rw [e]
      rfl
    · intro i hi
      show ins (remote_tx1 + i) = _ ∨ ins (remote_tx1 + i) = _
      rcases Nat.eq_zero_or_pos i with h0 | hpos
      · subst h0
        exact hcont.1
      · have := hretry (i - 1) (by omega)
        have e : remote_tx1 + 1 + (i - 1) = remote_tx1 + i := by omega
        rwa [e] at this
    · show ¬ (ins (remote_tx1 + (count + 1)) = _ ∨ ins (remote_tx1 + (count + 1)) = _)
        ∨ remote_tx1 + (count + 1) = 0xffffffff
      have e : remote_tx1 + 1 + count = remote_tx1 + (count + 1) := by omega
      rwa [e] at hstop
  | case2 x remote_tx1 ret hstop =>
    refine ⟨0, ?_, ?_, ?_, ?_⟩
    · show remote_tx1 + 0 < 2 ^ 32
      have : remote_tx1 < 2 ^ 32 := Nat.mod_lt _ (by norm_num)
      omega
    · rw [insert_right_loop]
      show (if (ret = K.KERN_NAME_EXISTS ∨ ret = K.KERN_FAILURE) ∧ remote_tx1 < 0xffffffff then _
        else _) = _
      rw [if_neg hstop]
      rfl
    · intro i hi
      omega
    · show ¬ (ins (remote_tx1 + 0) = _ ∨ ins (remote_tx1 + 0) = _) ∨ remote_tx1 + 0 = 0xffffffff
      have hlt : remote_tx1 < 2 ^ 32 := Nat.mod_lt _ (by norm_num)
      by_cases h : ret = K.KERN_NAME_EXISTS ∨ ret = K.KERN_FAILURE
      · right
        have : ¬ remote_tx1 < 0xffffffff := fun h2 => hstop ⟨h, h2⟩
        omega
      · left
        exact h

/-- The teardown issues no insertion. -/
theorem destroy_backend_no_insert (K : Mach) (backend : FridaPipeTransportBackend)
    (call : KernelCall) (h : call ∈ _frida_pipe_transport_destroy_backend K backend)
    (t n p : Nat) : call ≠ KernelCall.mach_port_insert_right t n p := by
  intro hc
  subst hc
  unfold _frida_pipe_transport_destroy_backend at h
  simp only [List.mem_append] at h
  rcases h with (((h | h) | h) | h) | h <;> split at h <;> simp at h

/-- C8: once the first four steps have succeeded, step 5 of
`_frida_pipe_transport_create_backend` enters its loop with `remote_tx` just
below `local_rx` and probes `local_rx, local_rx + 1, ..., local_rx + count` in
increasing order, one insertion each and no insertion after them.  Every probe
before the last was answered "name exists" or "failure"; the last one is the
first that was answered otherwise, or is `0xffffffff`.  The negotiation
succeeds with `remote_tx` equal to the last candidate exactly when its status
is 0, and otherwise fails with that status. -/
theorem negotiation_collision_avoidance (K : Mach) (kernel : NegotiationKernel)
    (h1 : kernel.task_for_pid.1 = 0) (h2 : kernel.mach_port_allocate_local_rx.1 = 0)
    (h3 : kernel.mach_port_allocate_remote_rx.1 = 0)
    (h4 : kernel.mach_port_extract_right.1 = 0)
    (hrx : kernel.mach_port_allocate_local_rx.2 < 2 ^ 32) :
    let local_rx := kernel.mach_port_allocate_local_rx.2
    let task := kernel.task_for_pid.2
    let ins := kernel.mach_port_insert_right
    let r := _frida_pipe_transport_create_backend K kernel
    ∃ count : Nat,
      local_rx + count ≤ 0xffffffff
      ∧ r.calls.take (count + 1)
          = (List.range' local_rx (count + 1)).map
              (fun name => KernelCall.mach_port_insert_right task name local_rx)
      ∧ (∀ call ∈ r.calls.drop (count + 1), ∀ t n p,
          call ≠ KernelCall.mach_port_insert_right t n p)
      ∧ (∀ i, i < count →
          ins (local_rx + i) = K.KERN_NAME_EXISTS ∨ ins (local_rx + i) = K.KERN_FAILURE)
      ∧ (¬ (ins (local_rx + count) = K.KERN_NAME_EXISTS
              ∨ ins (local_rx + count) = K.KERN_FAILURE)
          ∨ local_rx + count = 0xffffffff)
      ∧ r.state.remote_tx = local_rx + count
      ∧ (ins (local_rx + count) = 0 → r.backend = some r.state ∧ r.error = none)
      ∧ (ins (local_rx + count) ≠ 0 →
          r.backend = none
            ∧ r.error = some (GError.failed "mach_port_insert_right remote_tx"
                (ins (local_rx + count)))) := by
  intro local_rx task ins r
  obtain ⟨count, hlt, hloop, hretry, hstop⟩ :=
    insert_right_loop_spec K ins ((local_rx + 2 ^ 32 - 1) % 2 ^ 32)
  have hc0 : ((local_rx + 2 ^ 32 - 1) % 2 ^ 32 + 1) % 2 ^ 32 = local_rx := by
    have : local_rx < 2 ^ 32 := hrx
    omega
  rw [hc0] at hlt hloop hretry hstop
  have hr : r = _frida_pipe_transport_create_backend K kernel := rfl
  simp only [_frida_pipe_transport_create_backend, h1, h2, h3, h4, ne_eq, not_true_eq_false,
    if_false, if_true] at hr
  rw [hloop] at hr
  simp only [] at hr
  have hlen : ((List.range' local_rx (count + 1)).map
      (fun name => KernelCall.mach_port_insert_right kernel.task_for_pid.2 name
        kernel.mach_port_allocate_local_rx.2)).length = count + 1 := by
    simp
  have hlen : ((List.range' local_rx (count + 1)).map
      (fun name => KernelCall.mach_port_insert_right kernel.task_for_pid.2 name
        kernel.mach_port_allocate_local_rx.2)).length = count + 1 := by
    simp
  by_cases h0 : ins (local_rx + count) = 0
  · rw [if_neg (not_not.mpr h0)] at hr
    refine ⟨count, by omega, ?_, ?_, hretry, hstop, by rw [hr], fun _ => by rw [hr]; exact ⟨rfl, rfl⟩,
      fun h => absurd h0 h⟩
    · rw [hr]
      show List.take (count + 1) (List.map _ _) = _
      rw [List.take_of_length_le (by rw [hlen])]
    · rw [hr]
      show ∀ call ∈ List.drop (count + 1) (List.map _ _), _
      rw [List.drop_of_length_le (by rw [hlen])]
      intro call hcall
      exact absurd hcall (List.not_mem_nil _)
  · rw [if_pos h0] at hr
    refine ⟨count, by omega, ?_, ?_, hretry, hstop, by rw [hr]; rfl, fun h => absurd h h0,
      fun _ => by rw [hr]; exact ⟨rfl, rfl⟩⟩
    · rw [hr]
      show List.take (count + 1) (List.map _ _ ++ _) = _
      rw [List.take_append_of_le_length (by rw [hlen]), List.take_of_length_le (by rw [hlen])]
    · rw [hr]
      show ∀ call ∈ List.drop (count + 1) (List.map _ _ ++ _), _
      rw [List.drop_append_of_le_length (by rw [hlen]), List.drop_of_length_le (by rw [hlen]),
        List.nil_append]
      intro call hcall
      exact destroy_backend_no_insert K _ call hcall

/-- C9, at the failing input: the insertion fails at once with status 16, so
the negotiation never obtained `remote_tx`; the operation returns no backend
and names the failed operation and status, but the teardown issues a release
of a send right on the name 0x2003 in the remote task (second call below). -/
theorem rollback_releases_unobtained_remote_tx :
    (_frida_pipe_transport_create_backend darwin example_kernel_insert_fails).backend = none
      ∧ (_frida_pipe_transport_create_backend darwin example_kernel_insert_fails).error
          = some (GError.failed "mach_port_insert_right remote_tx" 16)
      ∧ (_frida_pipe_transport_create_backend darwin example_kernel_insert_fails).calls
          = [KernelCall.mach_port_insert_right 0x1a03 0x2003 0x2003,
             KernelCall.mach_port_mod_refs 0x1a03 0x2003 PortRight.send (-1),
             KernelCall.mach_port_mod_refs 0x103 0x4003 PortRight.send (-1),
             KernelCall.mach_port_mod_refs 0x1a03 0x3003 PortRight.receive (-1),
             KernelCall.mach_port_mod_refs 0x103 0x2003 PortRight.receive (-1),
             KernelCall.mach_port_deallocate 0x103 0x1a03] := by
  simp [_frida_pipe_transport_create_backend, example_kernel_insert_fails, insert_right_loop,
    darwin, handle_mach_error, _frida_pipe_transport_destroy_backend]

/-- C10, as stated, fails: a port name at or above `2 ^ 31` is printed with `%d`
as a negative number, not in unsigned decimal. -/
theorem address_of_high_name_is_signed :
    (_frida_pipe_transport_create_backend darwin example_kernel_high_name).local_address
        = some "pipe:rx=8195,tx=-2147483645"
      ∧ (_frida_pipe_transport_create_backend darwin example_kernel_high_name).local_address
        ≠ some (spec_address_unsigned 0x2003 0x80000003) := by
  have h : (_frida_pipe_transport_create_backend darwin example_kernel_high_name).local_address
      = some "pipe:rx=8195,tx=-2147483645" := by
    simp [_frida_pipe_transport_create_backend, example_kernel_high_name, insert_right_loop,
      darwin, format_address, printf_d, to_int32, decimal, digit_char]
  refine ⟨h, ?_⟩
  rw [h]
  simp [spec_address_unsigned, decimal, digit_char]

/-! ### Address strings -/

/-- A value in the range of `int` is its own 32 bit reading. -/
theorem to_int32_of_range (v : Int) (h1 : -2 ^ 31 ≤ v) (h2 : v < 2 ^ 31) : to_int32 v = v := by
  unfold to_int32
  omega

/-- The 32 bit reading is in the range of `int`. -/
theorem to_int32_range (v : Int) : -2 ^ 31 ≤ to_int32 v ∧ to_int32 v < 2 ^ 31 := by
  unfold to_int32
  omega

/-- The `int` reading of a 32 bit unsigned value. -/
theorem to_int32_of_nat (x : Nat) (h : x < 2 ^ 32) :
    to_int32 (x : Int) = if x < 2 ^ 31 then (x : Int) else (x : Int) - 2 ^ 32 := by
  unfold to_int32
  split <;> omega

/-- Converting the `int` reading back gives the unsigned value. -/
theorem to_uint32_to_int32 (x : Nat) (h : x < 2 ^ 32) : to_uint32 (to_int32 (x : Int)) = x := by
  unfold to_uint32 to_int32
  omega

/-- The code point of a digit character. -/
theorem digit_char_toNat (d : Nat) (h : d < 10) : (digit_char d).toNat = 48 + d := by
  unfold digit_char
  interval_cases d <;> rfl

/-- A digit character satisfies `isdigit`. -/
theorem isdigit_digit_char (d : Nat) (h : d < 10) : isdigit (digit_char d) = true := by
  simp [isdigit, digit_char_toNat d h]
  omega

/-- The decimal text of a number holds digits only. -/
theorem decimal_all_digits (n : Nat) : ∀ c ∈ decimal n, isdigit c = true := by
  induction n using decimal.induct with
  | case1 n h =>
    rw [decimal, if_pos h]
    intro c hc
    rw [List.mem_singleton] at hc
    rw [hc]
    exact isdigit_digit_char n h
  | case2 n h ih =>
    rw [decimal, if_neg h]
    intro c hc
    rw [List.mem_append, List.mem_singleton] at hc
    rcases hc with hc | hc
    · exact ih c hc
    · rw [hc]
      exact isdigit_digit_char _ (Nat.mod_lt _ (by norm_num))

/-- The decimal text of a number is not empty. -/
theorem decimal_ne_nil (n : Nat) : decimal n ≠ [] := by
  rw [decimal]
  split <;> simp

/-- Reading the decimal text of a number digit by digit gives the number. -/
theorem decimal_value (n : Nat) :
    (decimal n).foldl (fun acc c => acc * 10 + (c.toNat - 48)) 0 = n := by
  induction n using decimal.induct with
  | case1 n h =>
    rw [decimal, if_pos h]
    simp [digit_char_toNat n h]
  | case2 n h ih =>
    rw [decimal, if_neg h, List.foldl_append, ih]
    simp [digit_char_toNat (n % 10) (Nat.mod_lt _ (by norm_num))]
    omega

/-- Scanning through a run of digits accumulates their value. -/
theorem scan_digits_append (xs : List Char) (hxs : ∀ c ∈ xs, isdigit c = true)
    (rest : List Char) (acc : Nat) :
    scan_digits (xs ++ rest) acc
      = scan_digits rest (xs.foldl (fun acc c => acc * 10 + (c.toNat - 48)) acc) := by
  induction xs generalizing acc with
  | nil => rfl
  | cons x xs ih =>
    have hx : isdigit x = true := hxs x (List.mem_cons_self _ _)
    simp only [List.cons_append, scan_digits, hx, if_true, List.foldl_cons]
    exact ih (fun c hc => hxs c (List.mem_cons_of_mem _ hc)) _

/-- Scanning stops where no digit follows. -/
theorem scan_digits_stop (rest : List Char) (h : no_digit_ahead rest) (acc : Nat) :
    scan_digits rest acc = (acc, rest) := by
  cases rest with
  | nil => rfl
  | cons c cs =>
    have hc : isdigit c = false := h c (by simp)
    simp [scan_digits, hc]

/-- Scanning the decimal text of `n` yields `n` and the input after it. -/
theorem scan_digits_decimal (n : Nat) (rest : List Char) (h : no_digit_ahead rest) :
    scan_digits (decimal n ++ rest) 0 = (n, rest) := by
  rw [scan_digits_append _ (decimal_all_digits n), decimal_value, scan_digits_stop rest h]

/-- A format literal matches itself at the head of the input. -/
theorem scan_literal_append (f rest : List Char) : scan_literal f (f ++ rest) = Except.ok rest := by
  induction f with
  | nil => cases rest <;> rfl
  | cons c cs ih => simp [scan_literal, ih]

/-- Nothing is skipped when the input starts with a character that is no white space. -/
theorem skip_space_of_not_space (c : Char) (cs : List Char) (h : isspace c = false) :
    skip_space (c :: cs) = c :: cs := by
  simp [skip_space, h]

/-- A digit is neither white space nor a sign. -/
theorem isdigit_facts (c : Char) (h : isdigit c = true) :
    isspace c = false ∧ c ≠ '-' ∧ c ≠ '+' := by
  simp only [isdigit, decide_eq_true_eq] at h
  refine ⟨?_, ?_, ?_⟩
  · simp only [isspace, decide_eq_false_iff_not]
    omega
  · rintro rfl
    revert h
    decide
  · rintro rfl
    revert h
    decide

/-- Conversion `%d` of `sscanf` reads back what `%d` of `printf` wrote. -/
theorem scan_d_printf_d (v : Int) (rest : List Char) (h : no_digit_ahead rest) :
    scan_d (printf_d v ++ rest) = Except.ok (to_int32 v, rest) := by
  obtain ⟨d, ds, hd⟩ := List.exists_cons_of_ne_nil (decimal_ne_nil v.natAbs)
  have hdig : isdigit d = true := decimal_all_digits v.natAbs d (by rw [hd]; simp)
  obtain ⟨hsp, hminus, hplus⟩ := isdigit_facts d hdig
  have hscan : scan_digits (d :: (ds ++ rest)) 0 = (v.natAbs, rest) := by
    have := scan_digits_decimal v.natAbs rest h
    rwa [hd] at this
  unfold printf_d
  by_cases hv : v < 0
  · rw [if_pos hv, List.cons_append, hd]
    unfold scan_d
    rw [skip_space_of_not_space _ _ (by decide)]
    have e : -(v.natAbs : Int) = v := by omega
    simp only [List.cons_append, true_or, if_true, hdig, hscan, decide_True, e]
  · rw [if_neg hv, hd]
    unfold scan_d
    rw [List.cons_append, skip_space_of_not_space _ _ hsp]
    have e : (v.natAbs : Int) = v := by omega
    have hneg : decide (d = '-') = false := by simp [hminus]
    simp only [hminus, hplus, or_self, if_false, hdig, hscan, hneg, if_true, e]
    simp

/-- The `sscanf` of the backend constructor accepts the text built by the format of the negotiator, with both fields assigned. -/
theorem sscanf_address_of_data (address : String) (a b : Int)
    (h : address.data = "pipe:rx=".data ++ (printf_d a ++ (",tx=".data ++ printf_d b))) :
    sscanf_address address = (2, some (to_int32 a), some (to_int32 b)) := by
  have hcomma : no_digit_ahead (",tx=".data ++ printf_d b) := by
    intro c hc
    have : c = ',' := by
      simpa using hc.symm
    rw [this]
    decide
  have hnil : no_digit_ahead [] := by
    intro c hc
    simp at hc
  have hlast := scan_d_printf_d b [] hnil
  rw [List.append_nil] at hlast
  unfold sscanf_address
  rw [h, scan_literal_append]
  simp only []
  rw [scan_d_printf_d _ _ hcomma]
  simp only []
  rw [scan_literal_append]
  simp only []
  rw [hlast]

/-- The backend built when `sscanf` assigned both fields. -/
theorem create_backend_of_scan (address : String) (queue source : Nat) (a b : Int)
    (h : sscanf_address address = (2, some a, some b)) :
    _frida_pipe_create_backend address queue source
      = some
          { dispatch_queue := queue
            rx_port := to_uint32 a
            tx_port := to_uint32 b
            rx_buffer := none
            rx_buffer_cur := none
            rx_buffer_length := 0
            monitor_source := some source } := by
  unfold _frida_pipe_create_backend
  rw [h]
  simp only [if_true]

/-- The characters of a formatted address. -/
theorem format_address_data (rx tx : Nat) :
    (format_address rx tx).data
      = "pipe:rx=".data ++ (printf_d (to_int32 rx) ++ (",tx=".data ++ printf_d (to_int32 tx))) := by
  unfold format_address
  simp only [List.append_assoc]

/-- C2: for every pair of 32 bit port names, the address string formatted from
them by `_frida_pipe_transport_create_backend` is accepted by the `sscanf` of
`_frida_pipe_create_backend` with exactly two fields assigned, and the backend
stores `rx_port = rx` and `tx_port = tx`. -/
theorem address_round_trip (rx tx : Nat) (hrx : rx < 2 ^ 32) (htx : tx < 2 ^ 32)
    (queue source : Nat) :
    (sscanf_address (format_address rx tx)).1 = 2
      ∧ _frida_pipe_create_backend (format_address rx tx) queue source
          = some
              { dispatch_queue := queue
                rx_port := rx
                tx_port := tx
                rx_buffer := none
                rx_buffer_cur := none
                rx_buffer_length := 0
                monitor_source := some source } := by
  have h := sscanf_address_of_data _ _ _ (format_address_data rx tx)
  have e1 := to_int32_range (rx : Int)
  have e2 := to_int32_range (tx : Int)
  rw [to_int32_of_range _ e1.1 e1.2, to_int32_of_range _ e2.1 e2.2] at h
  refine ⟨by rw [h], ?_⟩
  rw [create_backend_of_scan _ queue source _ _ h, to_uint32_to_int32 rx hrx,
    to_uint32_to_int32 tx htx]

/-- The text of one field of an address: the decimal digits of the name when
it is below `2 ^ 31`, otherwise a minus sign and the digits of `2 ^ 32 - name`. -/
theorem printf_d_of_name (x : Nat) (h : x < 2 ^ 32) :
    printf_d (to_int32 x) = if x < 2 ^ 31 then decimal x else '-' :: decimal (2 ^ 32 - x) := by
  rw [to_int32_of_nat x h]
  unfold printf_d
  by_cases hx : x < 2 ^ 31
  · rw [if_pos hx, if_pos hx, if_neg (by omega)]
    congr 1
  · rw [if_neg hx, if_neg hx, if_pos (by omega)]
    congr 2
    omega


/-- The negotiation once its first four steps have succeeded, in terms of the
outcome `loop` of the insertion loop. -/
theorem create_backend_of_steps_ok (K : Mach) (kernel : NegotiationKernel)
    (h1 : kernel.task_for_pid.1 = 0) (h2 : kernel.mach_port_allocate_local_rx.1 = 0)
    (h3 : kernel.mach_port_allocate_remote_rx.1 = 0)
    (h4 : kernel.mach_port_extract_right.1 = 0) (loop : Nat × Int × List Nat)
    (hloop : insert_right_loop K kernel.mach_port_insert_right
      ((kernel.mach_port_allocate_local_rx.2 + 2 ^ 32 - 1) % 2 ^ 32) = loop) :
    _frida_pipe_transport_create_backend K kernel
      = if loop.2.1 ≠ 0 then
          handle_mach_error K
            { task := kernel.task_for_pid.2
              local_rx := kernel.mach_port_allocate_local_rx.2
              local_tx := kernel.mach_port_extract_right.2
              remote_rx := kernel.mach_port_allocate_remote_rx.2
              remote_tx := loop.1 }
            "mach_port_insert_right remote_tx" loop.2.1
            (loop.2.2.map (fun name => KernelCall.mach_port_insert_right
              kernel.task_for_pid.2 name kernel.mach_port_allocate_local_rx.2))
        else
          { backend := some
              { task := kernel.task_for_pid.2
                local_rx := kernel.mach_port_allocate_local_rx.2
                local_tx := kernel.mach_port_extract_right.2
                remote_rx := kernel.mach_port_allocate_remote_rx.2
                remote_tx := loop.1 }
            local_address := some (format_address kernel.mach_port_allocate_local_rx.2
              kernel.mach_port_extract_right.2)
            remote_address := some (format_address kernel.mach_port_allocate_remote_rx.2 loop.1)
            error := none
            calls := loop.2.2.map (fun name => KernelCall.mach_port_insert_right
              kernel.task_for_pid.2 name kernel.mach_port_allocate_local_rx.2)
            state :=
              { task := kernel.task_for_pid.2
                local_rx := kernel.mach_port_allocate_local_rx.2
                local_tx := kernel.mach_port_extract_right.2
                remote_rx := kernel.mach_port_allocate_remote_rx.2
                remote_tx := loop.1 } } := by
  simp only [_frida_pipe_transport_create_backend, h1, h2, h3, h4, ne_eq, not_true_eq_false,
    if_false, if_true, hloop]

/-- A negotiation in which one of the first four steps fails returns no
backend. -/
theorem create_backend_of_step_failed (K : Mach) (kernel : NegotiationKernel)
    (h : ¬ (kernel.task_for_pid.1 = 0 ∧ kernel.mach_port_allocate_local_rx.1 = 0
      ∧ kernel.mach_port_allocate_remote_rx.1 = 0 ∧ kernel.mach_port_extract_right.1 = 0)) :
    (_frida_pipe_transport_create_backend K kernel).backend = none := by
  by_cases h1 : kernel.task_for_pid.1 = 0
  swap
  · simp only [_frida_pipe_transport_create_backend, h1, ne_eq, not_false_eq_true, if_true,
      handle_mach_error]
  by_cases h2 : kernel.mach_port_allocate_local_rx.1 = 0
  swap
  · simp only [_frida_pipe_transport_create_backend, h1, h2, ne_eq, not_false_eq_true,
      not_true_eq_false, if_true, if_false, handle_mach_error]
  by_cases h3 : kernel.mach_port_allocate_remote_rx.1 = 0
  swap
  · simp only [_frida_pipe_transport_create_backend, h1, h2, h3, ne_eq, not_false_eq_true,
      not_true_eq_false, if_true, if_false, handle_mach_error]
  by_cases h4 : kernel.mach_port_extract_right.1 = 0
  swap
  · simp only [_frida_pipe_transport_create_backend, h1, h2, h3, h4, ne_eq, not_false_eq_true,
      not_true_eq_false, if_true, if_false, handle_mach_error]
  exact absurd ⟨h1, h2, h3, h4⟩ h

/-- On the success path the addresses stored in the result are those of the
backend stored in it. -/
theorem transport_result_addresses (a b c d e : Nat) (cs : List KernelCall) :
    (TransportResult.mk (some (FridaPipeTransportBackend.mk a b c d e))
        (some (format_address b c)) (some (format_address d e)) none cs
        (FridaPipeTransportBackend.mk a b c d e)).local_address
      = some (format_address (FridaPipeTransportBackend.mk a b c d e).local_rx
          (FridaPipeTransportBackend.mk a b c d e).local_tx)
    ∧ (TransportResult.mk (some (FridaPipeTransportBackend.mk a b c d e))
        (some (format_address b c)) (some (format_address d e)) none cs
        (FridaPipeTransportBackend.mk a b c d e)).remote_address
      = some (format_address (FridaPipeTransportBackend.mk a b c d e).remote_rx
          (FridaPipeTransportBackend.mk a b c d e).remote_tx) :=
  ⟨rfl, rfl⟩

/-- When the negotiation returns a backend, the two addresses are formatted
from its four port names. -/
theorem create_backend_addresses (K : Mach) (kernel : NegotiationKernel)
    (backend : FridaPipeTransportBackend)
    (h : (_frida_pipe_transport_create_backend K kernel).backend = some backend) :
    (_frida_pipe_transport_create_backend K kernel).local_address
        = some (format_address backend.local_rx backend.local_tx)
      ∧ (_frida_pipe_transport_create_backend K kernel).remote_address
        = some (format_address backend.remote_rx backend.remote_tx) := by
  by_cases hs : kernel.task_for_pid.1 = 0 ∧ kernel.mach_port_allocate_local_rx.1 = 0
      ∧ kernel.mach_port_allocate_remote_rx.1 = 0 ∧ kernel.mach_port_extract_right.1 = 0
  swap
  · rw [create_backend_of_step_failed K kernel hs] at h
    cases h
  obtain ⟨h1, h2, h3, h4⟩ := hs
  have hr := create_backend_of_steps_ok K kernel h1 h2 h3 h4 _ rfl
  generalize insert_right_loop K _ _ = loop at hr
  rw [hr] at h ⊢
  by_cases h0 : loop.2.1 = 0
  swap
  · rw [if_pos h0] at h
    cases h
  rw [if_neg (not_not.mpr h0)] at h ⊢
  cases h
  exact transport_result_addresses _ _ _ _ _ _

/-- C10, amended: each address produced by
`_frida_pipe_transport_create_backend` is "pipe:rx=", the first name, ",tx=",
the second name, where a name below `2 ^ 31` is written in decimal and a name
from `2 ^ 31` on is written as a minus sign followed by the decimal digits of
`2 ^ 32 - name` (the `%d` reading of the 32 bit value); when both names are
below `2 ^ 31` this is the unsigned decimal text of the specification. -/
theorem address_format_signed (K : Mach) (kernel : NegotiationKernel)
    (backend : FridaPipeTransportBackend)
    (h : (_frida_pipe_transport_create_backend K kernel).backend = some backend)
    (h1 : backend.local_rx < 2 ^ 32) (h2 : backend.local_tx < 2 ^ 32)
    (h3 : backend.remote_rx < 2 ^ 32) (h4 : backend.remote_tx < 2 ^ 32) :
    let field := fun (name : Nat) =>
      if name < 2 ^ 31 then decimal name else '-' :: decimal (2 ^ 32 - name)
    (_frida_pipe_transport_create_backend K kernel).local_address
        = some (String.mk ("pipe:rx=".data ++ field backend.local_rx ++ ",tx=".data
            ++ field backend.local_tx))
      ∧ (_frida_pipe_transport_create_backend K kernel).remote_address
        = some (String.mk ("pipe:rx=".data ++ field backend.remote_rx ++ ",tx=".data
            ++ field backend.remote_tx))
      ∧ (backend.local_rx < 2 ^ 31 → backend.local_tx < 2 ^ 31 →
          (_frida_pipe_transport_create_backend K kernel).local_address
            = some (spec_address_unsigned backend.local_rx backend.local_tx))
      ∧ (backend.remote_rx < 2 ^ 31 → backend.remote_tx < 2 ^ 31 →
          (_frida_pipe_transport_create_backend K kernel).remote_address
            = some (spec_address_unsigned backend.remote_rx backend.remote_tx)) := by
  intro field
  obtain ⟨hl, hr⟩ := create_backend_addresses K kernel backend h
  have hf : ∀ x : Nat, x < 2 ^ 32 → printf_d (to_int32 x) = field x := printf_d_of_name
  have hfmt : ∀ rx tx, rx < 2 ^ 32 → tx < 2 ^ 32 → format_address rx tx
      = String.mk ("pipe:rx=".data ++ field rx ++ ",tx=".data ++ field tx) := by
    intro rx tx hrx htx
    unfold format_address
    rw [hf rx hrx, hf tx htx]
  have hlow : ∀ x, x < 2 ^ 31 → field x = decimal x := by
    intro x hx
    show (if x < 2 ^ 31 then decimal x else '-' :: decimal (2 ^ 32 - x)) = _
    rw [if_pos hx]
  refine ⟨?_, ?_, ?_, ?_⟩
  · rw [hl, hfmt _ _ h1 h2]
  · rw [hr, hfmt _ _ h3 h4]
  · intro a b
    rw [hl, hfmt _ _ h1 h2, hlow _ a, hlow _ b]
    rfl
  · intro a b
    rw [hr, hfmt _ _ h3 h4, hlow _ a, hlow _ b]
    rfl

/-- Witness of `negotiation_collision_avoidance`: the remote names 0x2003 and
0x2004 are taken, the third probe succeeds. -/
theorem negotiation_collision_avoidance_witness :
    (example_kernel_collision.task_for_pid.1 = 0
      ∧ example_kernel_collision.mach_port_allocate_local_rx.1 = 0
      ∧ example_kernel_collision.mach_port_allocate_remote_rx.1 = 0
      ∧ example_kernel_collision.mach_port_extract_right.1 = 0
      ∧ example_kernel_collision.mach_port_allocate_local_rx.2 < 2 ^ 32)
    ∧ (let local_rx := example_kernel_collision.mach_port_allocate_local_rx.2
      let task := example_kernel_collision.task_for_pid.2
      let ins := example_kernel_collision.mach_port_insert_right
      let r := _frida_pipe_transport_create_backend darwin example_kernel_collision
      ∃ count : Nat,
        local_rx + count ≤ 0xffffffff
        ∧ r.calls.take (count + 1)
            = (List.range' local_rx (count + 1)).map
                (fun name => KernelCall.mach_port_insert_right task name local_rx)
        ∧ (∀ call ∈ r.calls.drop (count + 1), ∀ t n p,
            call ≠ KernelCall.mach_port_insert_right t n p)
        ∧ (∀ i, i < count →
            ins (local_rx + i) = darwin.KERN_NAME_EXISTS ∨ ins (local_rx + i) = darwin.KERN_FAILURE)
        ∧ (¬ (ins (local_rx + count) = darwin.KERN_NAME_EXISTS
                ∨ ins (local_rx + count) = darwin.KERN_FAILURE)
            ∨ local_rx + count = 0xffffffff)
        ∧ r.state.remote_tx = local_rx + count
        ∧ (ins (local_rx + count) = 0 → r.backend = some r.state ∧ r.error = none)
        ∧ (ins (local_rx + count) ≠ 0 →
            r.backend = none
              ∧ r.error = some (GError.failed "mach_port_insert_right remote_tx"
                  (ins (local_rx + count))))) :=
  ⟨⟨rfl, rfl, rfl, rfl, by decide⟩,
    negotiation_collision_avoidance darwin example_kernel_collision rfl rfl rfl rfl (by decide)⟩

/-- Witness of `address_round_trip`: a small name and a name above `2 ^ 31`. -/
theorem address_round_trip_witness :
    (0x1503 < 2 ^ 32 ∧ 0x80000003 < 2 ^ 32)
    ∧ (sscanf_address (format_address 0x1503 0x80000003)).1 = 2
    ∧ _frida_pipe_create_backend (format_address 0x1503 0x80000003) 1 7
        = some
            { dispatch_queue := 1
              rx_port := 0x1503
              tx_port := 0x80000003
              rx_buffer := none
              rx_buffer_cur := none
              rx_buffer_length := 0
              monitor_source := some 7 } :=
  ⟨⟨by decide, by decide⟩, address_round_trip 0x1503 0x80000003 (by decide) (by decide) 1 7⟩

/-- The backend returned by the negotiation `example_kernel_high_name`. -/
theorem example_kernel_high_name_backend :
    (_frida_pipe_transport_create_backend darwin example_kernel_high_name).backend
      = some { task := 0x1a03, local_rx := 0x2003, local_tx := 0x80000003, remote_rx := 0x3003,
               remote_tx := 0x2003 } := by
  simp [_frida_pipe_transport_create_backend, example_kernel_high_name, insert_right_loop, darwin]

/-- Witness of `address_format_signed`: the negotiation `example_kernel_high_name`,
whose local send right is named `2 ^ 31 + 3`. -/
theorem address_format_signed_witness :
    let backend : FridaPipeTransportBackend :=
      { task := 0x1a03, local_rx := 0x2003, local_tx := 0x80000003, remote_rx := 0x3003,
        remote_tx := 0x2003 }
    let field := fun (name : Nat) =>
      if name < 2 ^ 31 then decimal name else '-' :: decimal (2 ^ 32 - name)
    (_frida_pipe_transport_create_backend darwin example_kernel_high_name).local_address
        = some (String.mk ("pipe:rx=".data ++ field backend.local_rx ++ ",tx=".data
            ++ field backend.local_tx))
      ∧ (_frida_pipe_transport_create_backend darwin example_kernel_high_name).remote_address
        = some (String.mk ("pipe:rx=".data ++ field backend.remote_rx ++ ",tx=".data
            ++ field backend.remote_tx))
      ∧ (backend.local_rx < 2 ^ 31 → backend.local_tx < 2 ^ 31 →
          (_frida_pipe_transport_create_backend darwin example_kernel_high_name).local_address
            = some (spec_address_unsigned backend.local_rx backend.local_tx))
      ∧ (backend.remote_rx < 2 ^ 31 → backend.remote_tx < 2 ^ 31 →
          (_frida_pipe_transport_create_backend darwin example_kernel_high_name).remote_address
            = some (spec_address_unsigned backend.remote_rx backend.remote_tx)) :=
  address_format_signed darwin example_kernel_high_name _ example_kernel_high_name_backend
    (by decide) (by decide) (by decide) (by decide)

/-! ### Read path -/

/-- A length below `2 ^ 31` passed as `int` converts to itself as unsigned. -/
theorem int_length_toNat (k : Nat) (h : k < 2 ^ 31) : ((k : Int) % 2 ^ 32).toNat = k := by
  omega

/-- The receive loop issues at least one receive, on the port it was given. -/
theorem receive_loop_calls (K : Mach) (rx_port msg_size : Nat) (mailbox : List Receive) :
    ∃ size calls, (receive_loop K rx_port msg_size mailbox).1
      = KernelCall.mach_msg_receive size rx_port :: calls := by
  cases mailbox with
  | nil => exact ⟨_, [], rfl⟩
  | cons e rest =>
    obtain ⟨ret, msg⟩ := e
    by_cases h : ret = K.MACH_RCV_TOO_LARGE
    · refine ⟨msg_size % 2 ^ 32,
        (receive_loop K rx_port (msg.header.msgh_size + K.sizeof_mach_msg_trailer_t) rest).1, ?_⟩
      simp only [receive_loop, h, if_true]
    · exact ⟨msg_size % 2 ^ 32, [], by simp only [receive_loop, h, if_false]⟩

/-- The receive loop retries while the kernel answers "too large" and returns
the first other answer, leaving the answers that follow it. -/
theorem receive_loop_result (K : Mach) (rx_port : Nat) (pre : List Receive)
    (hpre : ∀ e ∈ pre, e.1 = K.MACH_RCV_TOO_LARGE) (ret : Int) (msg : FridaPipeMessage)
    (hret : ret ≠ K.MACH_RCV_TOO_LARGE) (rest : List Receive) (msg_size : Nat) :
    (receive_loop K rx_port msg_size (pre ++ (ret, msg) :: rest)).2 = some ((ret, msg), rest) := by
  induction pre generalizing msg_size with
  | nil => simp only [List.nil_append, receive_loop, hret, if_false]
  | cons e pre ih =>
    obtain ⟨r, m⟩ := e
    have hr : r = K.MACH_RCV_TOO_LARGE := hpre (r, m) (List.mem_cons_self _ _)
    simp only [List.cons_append, receive_loop, hr, if_true]
    exact ih (fun e he => hpre e (List.mem_cons_of_mem _ he)) _

/-- A read on a backend that holds a pending buffer is the copy step alone. -/
theorem read_of_pending (K : Mach) (backend : FridaPipeBackend) (msg : FridaPipeMessage)
    (h : backend.rx_buffer = some msg) (buffer_length : Int) (cancellable : Option GCancellable)
    (mailbox : List Receive) :
    _frida_pipe_input_stream_read K backend buffer_length cancellable mailbox
      = read_copy backend buffer_length mailbox [] := by
  unfold _frida_pipe_input_stream_read
  rw [h]

/-- The copy step on a pending buffer: `min k remaining` bytes from the cursor;
the buffer is released when nothing remains. -/
theorem read_copy_with_pending (backend : FridaPipeBackend) (msg : FridaPipeMessage)
    (cur remaining k : Nat) (hk : k < 2 ^ 31) (mailbox : List Receive)
    (calls : List KernelCall) :
    read_copy (with_pending backend msg cur remaining) k mailbox calls
      = { n := some ((min k remaining : Nat) : Int)
          data := (msg.payload.drop cur).take (min k remaining)
          error := none
          backend :=
            if remaining ≤ k then without_pending backend
            else with_pending backend msg (cur + k) (remaining - k)
          mailbox := mailbox
          calls := calls } := by
  unfold read_copy
  simp only [with_pending, int_length_toNat k hk, Option.map_some']
  by_cases h : k < remaining
  · have h1 : min k remaining = k := by omega
    have h2 : ¬ remaining ≤ k := by omega
    have h3 : ¬ remaining - k = 0 := by omega
    simp only [h, if_true, h1, h2, h3, if_false]
  · have h1 : min k remaining = remaining := by omega
    have h2 : remaining ≤ k := by omega
    simp only [h, if_false, h1, h2, if_true, Nat.sub_self, without_pending]

/-- A read on a backend with no pending buffer, with a token that is not
cancelled, whose receive yields a data frame: the frame becomes the pending
buffer and the copy step runs on it. -/
theorem read_of_data_frame (K : Mach) (backend : FridaPipeBackend)
    (hnone : backend.rx_buffer = none) (buffer_length : Int)
    (cancellable : Option GCancellable)
    (htoken : cancellable.any (fun c => c.cancelled) = false)
    (pre : List Receive) (hpre : ∀ e ∈ pre, e.1 = K.MACH_RCV_TOO_LARGE)
    (hK : K.MACH_RCV_TOO_LARGE ≠ 0) (msg : FridaPipeMessage) (hid : msg.header.msgh_id = 1)
    (rest : List Receive) :
    _frida_pipe_input_stream_read K backend buffer_length cancellable
        (pre ++ (0, msg) :: rest)
      = read_copy (with_pending backend msg 0 msg.size) buffer_length rest
          (g_cancellable_connect K backend cancellable
            ++ (receive_loop K backend.rx_port (sizeof_mach_msg_empty_rcv_t K)
                  (pre ++ (0, msg) :: rest)).1) := by
  have hloop := receive_loop_result K backend.rx_port pre hpre 0 msg (Ne.symm hK) rest
    (sizeof_mach_msg_empty_rcv_t K)
  obtain ⟨q, rx, tx, buf, cur, len, mon⟩ := backend
  simp only at hnone
  subst hnone
  unfold _frida_pipe_input_stream_read
  simp only [hloop, ne_eq, not_true_eq_false, if_false, hid, if_true, htoken, with_pending,
    Bool.false_eq_true]

/-- The copy step does not depend on the calls recorded before it, except in
the calls it returns. -/
theorem read_copy_calls (backend : FridaPipeBackend) (buffer_length : Int)
    (mailbox : List Receive) (calls : List KernelCall) :
    (read_copy backend buffer_length mailbox calls).n
        = (read_copy backend buffer_length mailbox []).n
      ∧ (read_copy backend buffer_length mailbox calls).data
        = (read_copy backend buffer_length mailbox []).data
      ∧ (read_copy backend buffer_length mailbox calls).backend
        = (read_copy backend buffer_length mailbox []).backend
      ∧ (read_copy backend buffer_length mailbox calls).mailbox
        = (read_copy backend buffer_length mailbox []).mailbox :=
  ⟨rfl, rfl, rfl, rfl⟩

/-- The number of reads of at most `k` bytes that drain `remaining` bytes. -/
theorem reads_needed_step (k remaining : Nat) (hk : 1 ≤ k) (h : k < remaining) :
    (if remaining = 0 then 1 else (remaining + k - 1) / k)
      = (if remaining - k = 0 then 1 else (remaining - k + k - 1) / k) + 1 := by
  have h1 : remaining ≠ 0 := by omega
  have h2 : remaining - k ≠ 0 := by omega
  rw [if_neg h1, if_neg h2]
  have e : remaining + k - 1 = (remaining - k + k - 1) + k := by omega
  rw [e, Nat.add_div_right _ (by omega)]

/-- One read drains a buffer that holds at most `k` bytes. -/
theorem reads_needed_one (k remaining : Nat) (hk : 1 ≤ k) (h : remaining ≤ k) :
    (if remaining = 0 then 1 else (remaining + k - 1) / k) = 1 := by
  split
  · rfl
  · apply Nat.div_eq_of_lt_le <;> omega

/-- One read on a pending buffer, as a step of `read_repeat`. -/
theorem read_repeat_succ_pending (K : Mach) (backend : FridaPipeBackend)
    (msg : FridaPipeMessage) (k : Nat) (hk : k < 2 ^ 31) (token : Option GCancellable)
    (mailbox : List Receive) (cur remaining count : Nat) :
    read_repeat K k token (count + 1) (with_pending backend msg cur remaining) mailbox
      = ((some ((min k remaining : Nat) : Int), (msg.payload.drop cur).take (min k remaining))
          :: (read_repeat K k token count
                (if remaining ≤ k then without_pending backend
                  else with_pending backend msg (cur + k) (remaining - k)) mailbox).1,
         (read_repeat K k token count
            (if remaining ≤ k then without_pending backend
              else with_pending backend msg (cur + k) (remaining - k)) mailbox).2) := by
  have h := read_of_pending K (with_pending backend msg cur remaining) msg rfl k token mailbox
  rw [read_copy_with_pending backend msg cur remaining k hk mailbox []] at h
  simp only [read_repeat, h]

/-- Reads of at most `k` bytes on a pending buffer with `remaining` bytes left:
the chunks returned, and the state once the buffer is drained. -/
theorem read_repeat_pending (K : Mach) (backend : FridaPipeBackend) (msg : FridaPipeMessage)
    (k : Nat) (hk1 : 1 ≤ k) (hk2 : k < 2 ^ 31) (token : Option GCancellable)
    (mailbox : List Receive) (remaining : Nat) :
    ∀ cur : Nat,
      read_repeat K k token (if remaining = 0 then 1 else (remaining + k - 1) / k)
          (with_pending backend msg cur remaining) mailbox
        = ((List.range (if remaining = 0 then 1 else (remaining + k - 1) / k)).map
              (fun i => (some ((min k (remaining - i * k) : Nat) : Int),
                (msg.payload.drop (cur + i * k)).take (min k (remaining - i * k)))),
            without_pending backend, mailbox) := by
  induction remaining using Nat.strong_induction_on with
  | _ remaining ih =>
    intro cur
    by_cases h : remaining ≤ k
    · rw [reads_needed_one k remaining hk1 h, read_repeat_succ_pending K backend msg k hk2,
        if_pos h]
      have hr : List.range 1 = [0] := rfl
      simp only [read_repeat, hr, List.map_cons, List.map_nil, Nat.zero_mul,
        Nat.sub_zero, Nat.add_zero]
    · have hlt : k < remaining := by omega
      rw [reads_needed_step k remaining hk1 hlt,
        read_repeat_succ_pending K backend msg k hk2, if_neg h,
        ih (remaining - k) (by omega) (cur + k), List.range_succ_eq_map]
      simp only [List.map_cons, List.map_map, Nat.zero_mul, Nat.sub_zero, Nat.add_zero]
      congr 2
      apply List.map_congr_left
      intro i _
      have e1 : remaining - k - i * k = remaining - (i + 1) * k := by
        rw [Nat.succ_mul]; omega
      have e2 : cur + k + i * k = cur + (i + 1) * k := by
        rw [Nat.succ_mul]; omega
      simp only [Function.comp, e1, e2]

/-- Before the last of the reads that drain it, the pending buffer is still
the same datagram. -/
theorem read_repeat_pending_before_last (K : Mach) (backend : FridaPipeBackend)
    (msg : FridaPipeMessage) (k : Nat) (hk1 : 1 ≤ k) (hk2 : k < 2 ^ 31)
    (token : Option GCancellable) (mailbox : List Receive) (j : Nat) :
    ∀ remaining cur : Nat, j < (if remaining = 0 then 1 else (remaining + k - 1) / k) →
      (read_repeat K k token j (with_pending backend msg cur remaining) mailbox).2
        = (with_pending backend msg (cur + j * k) (remaining - j * k), mailbox) := by
  induction j with
  | zero =>
    intro remaining cur _
    simp [read_repeat]
  | succ j ih =>
    intro remaining cur hj
    have hlt : k < remaining := by
      by_contra hc
      rw [reads_needed_one k remaining hk1 (by omega)] at hj
      omega
    rw [reads_needed_step k remaining hk1 hlt] at hj
    rw [read_repeat_succ_pending K backend msg k hk2, if_neg (by omega)]
    simp only []
    rw [ih (remaining - k) (cur + k) (by omega)]
    have e1 : remaining - k - j * k = remaining - (j + 1) * k := by
      rw [Nat.succ_mul]; omega
    have e2 : cur + k + j * k = cur + (j + 1) * k := by
      rw [Nat.succ_mul]; omega
    rw [e1, e2]

/-- Consecutive pieces of `k` bytes that cover a list concatenate to it. -/
theorem chunks_join (k : Nat) (count : Nat) :
    ∀ b : List Nat, b.length ≤ count * k →
      ((List.range count).map (fun i => (b.drop (i * k)).take k)).flatten = b := by
  induction count with
  | zero =>
    intro b hb
    have : b = [] := List.eq_nil_of_length_eq_zero (by omega)
    subst this
    rfl
  | succ n ih =>
    intro b hb
    rw [List.range_succ_eq_map]
    simp only [List.map_cons, List.map_map, List.flatten_cons, Nat.zero_mul, List.drop_zero]
    have hstep : (List.map ((fun i => (b.drop (i * k)).take k) ∘ Nat.succ) (List.range n))
        = (List.range n).map (fun i => ((b.drop k).drop (i * k)).take k) := by
      apply List.map_congr_left
      intro i _
      simp only [Function.comp, List.drop_drop, Nat.succ_mul]
      congr 2
      omega
    rw [hstep, ih (b.drop k) (by rw [List.length_drop, Nat.succ_mul] at *; omega)]
    exact List.take_append_drop k b

/-- Every index below the number of reads needed starts inside the data. -/
theorem reads_needed_index (k remaining i : Nat) (hk : 1 ≤ k)
    (hi : i < (if remaining = 0 then 1 else (remaining + k - 1) / k)) :
    i * k ≤ remaining := by
  by_cases h : remaining = 0
  · rw [if_pos h] at hi
    have : i = 0 := by omega
    subst this
    omega
  · rw [if_neg h] at hi
    have h1 : (i + 1) * k ≤ remaining + k - 1 := (Nat.le_div_iff_mul_le (by omega)).mp hi
    rw [Nat.succ_mul] at h1
    omega

/-- A piece read from the payload of a frame that carries `b` is a piece of `b`. -/
theorem payload_piece (b pad : List Nat) (k offset : Nat) (h : offset ≤ b.length) :
    ((b ++ pad).drop offset).take (min k (b.length - offset)) = (b.drop offset).take k := by
  rw [List.drop_append_of_le_length h, List.take_append_of_le_length (by
    rw [List.length_drop]; omega)]
  rw [List.take_eq_take]
  rw [List.length_drop]
  omega

/-- The reads needed cover the data. -/
theorem reads_needed_cover (k remaining : Nat) (hk : 1 ≤ k) :
    remaining ≤ (if remaining = 0 then 1 else (remaining + k - 1) / k) * k := by
  split
  · omega
  · have h1 := Nat.div_add_mod (remaining + k - 1) k
    have h2 := Nat.mod_lt (remaining + k - 1) (show k > 0 by omega)
    rw [Nat.mul_comm]
    omega

/-- At least one read is needed. -/
theorem reads_needed_ne_zero (k remaining : Nat) (hk : 1 ≤ k) :
    (if remaining = 0 then 1 else (remaining + k - 1) / k) ≠ 0 := by
  split
  · omega
  · have : 1 ≤ (remaining + k - 1) / k := (Nat.le_div_iff_mul_le (by omega)).mpr (by omega)
    omega

/-- A series of reads that starts by receiving a data frame returns what the
same series returns on a backend that already holds the frame. -/
theorem read_repeat_of_data_frame (K : Mach) (backend : FridaPipeBackend)
    (hnone : backend.rx_buffer = none) (k : Nat) (hk : k < 2 ^ 31)
    (cancellable : Option GCancellable)
    (htoken : cancellable.any (fun c => c.cancelled) = false)
    (pre : List Receive) (hpre : ∀ e ∈ pre, e.1 = K.MACH_RCV_TOO_LARGE)
    (hK : K.MACH_RCV_TOO_LARGE ≠ 0) (msg : FridaPipeMessage) (hid : msg.header.msgh_id = 1)
    (rest : List Receive) (count : Nat) (hcount : count ≠ 0) :
    read_repeat K k cancellable count backend (pre ++ (0, msg) :: rest)
      = read_repeat K k cancellable count (with_pending backend msg 0 msg.size) rest := by
  obtain ⟨c, rfl⟩ := Nat.exists_eq_succ_of_ne_zero hcount
  have h := read_of_data_frame K backend hnone k cancellable htoken pre hpre hK msg hid rest
  rw [read_copy_with_pending backend msg 0 msg.size k hk] at h
  rw [read_repeat_succ_pending K backend msg k hk]
  simp only [read_repeat, h]

/-- C1: a write of `b` succeeds and the datagram it built is the next one the
kernel delivers (after any number of "too large" answers) to a backend with no
pending buffer; then reads with `max_length = k >= 1` return, in order, the
pieces `b[i*k .. i*k + k)`, each of length `min k (|b| - i*k)`, whose
concatenation is `b`; the number of reads is 1 for an empty `b` and
`ceil (|b| / k)` otherwise; the pending buffer is still that datagram before
the last of them and is released after it, and nothing else was received. -/
theorem data_round_trip (K : Mach) (writer reader : FridaPipeBackend) (b : List Nat)
    (heap : Nat → Nat) (mach_msg_send : FridaPipeMessage → Int) (k : Nat)
    (token : Option GCancellable) (pre : List Receive) (sent received : FridaPipeMessage)
    (rest : List Receive)
    (hlen : b.length < 2 ^ 31) (hk1 : 1 ≤ k) (hk2 : k < 2 ^ 31)
    (hwrite : (_frida_pipe_output_stream_write K writer b heap mach_msg_send).error = none)
    (hsent : KernelCall.mach_msg_send sent
      ∈ (_frida_pipe_output_stream_write K writer b heap mach_msg_send).calls)
    (hid : received.header.msgh_id = sent.header.msgh_id)
    (hsize : received.size = sent.size)
    (hpayload : received.payload = sent.payload)
    (hpre : ∀ e ∈ pre, e.1 = K.MACH_RCV_TOO_LARGE) (hK : K.MACH_RCV_TOO_LARGE ≠ 0)
    (hreader : reader.rx_buffer = none)
    (htoken : token.any (fun c => c.cancelled) = false) :
    let count := if b.length = 0 then 1 else (b.length + k - 1) / k
    let reads := read_repeat K k token count reader (pre ++ (0, received) :: rest)
    (_frida_pipe_output_stream_write K writer b heap mach_msg_send).n = (b.length : Int)
      ∧ reads.1 = (List.range count).map
        (fun i => (some ((min k (b.length - i * k) : Nat) : Int), (b.drop (i * k)).take k))
      ∧ (reads.1.map Prod.snd).flatten = b
      ∧ (∀ i, i < count → ((b.drop (i * k)).take k).length = min k (b.length - i * k))
      ∧ reads.2 = (without_pending reader, rest)
      ∧ (∀ j, 0 < j → j < count →
          (read_repeat K k token j reader (pre ++ (0, received) :: rest)).2
            = (with_pending reader received (j * k) (b.length - j * k), rest)) := by
  have hsent_eq : sent = write_message K writer b heap := by
    unfold _frida_pipe_output_stream_write at hsent
    simp only [] at hsent
    split at hsent <;> simpa using hsent
  subst hsent_eq
  have hn : (_frida_pipe_output_stream_write K writer b heap mach_msg_send).n
      = (b.length : Int) := by
    unfold _frida_pipe_output_stream_write at hwrite ⊢
    simp only [] at hwrite ⊢
    split at hwrite
    · cases hwrite
    · rename_i h
      rw [if_neg h]
  intro count reads
  have hid1 : received.header.msgh_id = 1 := hid
  have hsize1 : received.size = b.length := by
    rw [hsize]
    show b.length % 2 ^ 32 = b.length
    apply Nat.mod_eq_of_lt
    omega
  obtain ⟨pad, hpad⟩ : ∃ pad, received.payload = b ++ pad := ⟨_, hpayload⟩
  have hcount : count ≠ 0 := reads_needed_ne_zero k b.length hk1
  have hreads : reads = ((List.range count).map
      (fun i => (some ((min k (b.length - i * k) : Nat) : Int), (b.drop (i * k)).take k)),
      without_pending reader, rest) := by
    show read_repeat K k token count reader (pre ++ (0, received) :: rest) = _
    rw [read_repeat_of_data_frame K reader hreader k hk2 token htoken pre hpre hK received
      hid1 rest count hcount, hsize1]
    have := read_repeat_pending K reader received k hk1 hk2 token rest b.length 0
    refine this.trans ?_
    congr 1
    apply List.map_congr_left
    intro i hi
    have hik : i * k ≤ b.length := reads_needed_index k b.length i hk1 (List.mem_range.mp hi)
    rw [hpad, Nat.zero_add, payload_piece b pad k (i * k) hik]
  refine ⟨hn, by rw [hreads], ?_, ?_, by rw [hreads], ?_⟩
  · rw [hreads]
    simp only [List.map_map]
    exact chunks_join k count b (reads_needed_cover k b.length hk1)
  · intro i _
    rw [List.length_take, List.length_drop]
  · intro j hj0 hj
    rw [read_repeat_of_data_frame K reader hreader k hk2 token htoken pre hpre hK received
      hid1 rest j (by omega), hsize1,
      read_repeat_pending_before_last K reader received k hk1 hk2 token rest j
        b.length 0 hj, Nat.zero_add]

/-- What the receive loop returns was one of the answers of the kernel. -/
theorem receive_loop_mem (K : Mach) (rx_port : Nat) (mailbox : List Receive) :
    ∀ (msg_size : Nat) (e : Receive) (rest : List Receive),
      (receive_loop K rx_port msg_size mailbox).2 = some (e, rest) → e ∈ mailbox := by
  induction mailbox with
  | nil =>
    intro msg_size e rest h
    simp [receive_loop] at h
  | cons a mailbox ih =>
    intro msg_size e rest h
    obtain ⟨ret, msg⟩ := a
    by_cases hr : ret = K.MACH_RCV_TOO_LARGE
    · simp only [receive_loop, hr, if_true] at h
      exact List.mem_cons_of_mem _ (ih _ e rest h)
    · simp only [receive_loop, hr, if_false, Option.some.injEq, Prod.mk.injEq] at h
      rw [← h.1]
      exact List.mem_cons_self _ _

/-- The copy step keeps the pending buffer or releases it, and takes its data
from the payload of that buffer. -/
theorem read_copy_buffer (backend : FridaPipeBackend) (buffer_length : Int)
    (mailbox : List Receive) (calls : List KernelCall) :
    ((read_copy backend buffer_length mailbox calls).backend.rx_buffer = backend.rx_buffer
        ∨ (read_copy backend buffer_length mailbox calls).backend.rx_buffer = none)
      ∧ (∀ msg, backend.rx_buffer = some msg →
          ∃ offset length : Nat,
            (read_copy backend buffer_length mailbox calls).data
              = (msg.payload.drop offset).take length)
      ∧ (read_copy backend buffer_length mailbox calls).mailbox = mailbox
      ∧ (read_copy backend buffer_length mailbox calls).calls = calls := by
  obtain ⟨q, rx, tx, buf, cur, len, mon⟩ := backend
  refine ⟨?_, ?_, rfl, rfl⟩
  · unfold read_copy
    simp only []
    split_ifs <;> simp
  · intro msg hmsg
    simp only at hmsg
    subst hmsg
    cases cur with
    | none => exact ⟨0, 0, by simp [read_copy]⟩
    | some c =>
      exact ⟨c, if (buffer_length % 2 ^ 32).toNat < len then (buffer_length % 2 ^ 32).toNat
        else len, by simp only [read_copy]⟩

/-- A read on a backend with no pending buffer, in terms of the outcome `loop`
of its receive loop. -/
theorem read_of_no_pending (K : Mach) (backend : FridaPipeBackend)
    (hnone : backend.rx_buffer = none) (buffer_length : Int)
    (cancellable : Option GCancellable) (mailbox : List Receive)
    (loop : List KernelCall × Option (Receive × List Receive))
    (hloop : receive_loop K backend.rx_port (sizeof_mach_msg_empty_rcv_t K) mailbox = loop) :
    _frida_pipe_input_stream_read K backend buffer_length cancellable mailbox
      = match loop.2 with
        | none =>
          { n := none, data := [], error := none, backend := backend, mailbox := [],
            calls := g_cancellable_connect K backend cancellable ++ loop.1 }
        | some ((ret, msg), rest) =>
          if ret ≠ 0 then
            { n := some 0, data := [], error := some (GError.failed "mach_msg" ret),
              backend := backend, mailbox := rest,
              calls := g_cancellable_connect K backend cancellable ++ loop.1 }
          else if cancellable.any (fun c => c.cancelled) then
            { n := some (-1), data := [], error := some GError.cancelled,
              backend :=
                if msg.header.msgh_id = 1 then with_pending backend msg 0 msg.size else backend,
              mailbox := rest,
              calls := g_cancellable_connect K backend cancellable ++ loop.1 }
          else
            read_copy
              (if msg.header.msgh_id = 1 then with_pending backend msg 0 msg.size else backend)
              buffer_length rest (g_cancellable_connect K backend cancellable ++ loop.1) := by
  obtain ⟨q, rx, tx, buf, cur, len, mon⟩ := backend
  simp only at hnone
  subst hnone
  unfold _frida_pipe_input_stream_read
  simp only [hloop, with_pending]

/-- Function `_frida_pipe_input_stream_read` issues a receive if and only if the
backend holds no pending buffer on entry.  With a pending buffer it issues no
call at all and leaves the mailbox untouched, the bytes it returns are a piece
of the payload of that one datagram, and afterwards the pending buffer is
either the same datagram or released.  A pending buffer that exists after a
read that started without one is one of the datagrams received by that read,
and the bytes returned are a piece of its payload. -/
theorem read_pending_or_received (K : Mach) (backend : FridaPipeBackend)
    (buffer_length : Int) (cancellable : Option GCancellable) (mailbox : List Receive) :
    let r := _frida_pipe_input_stream_read K backend buffer_length cancellable mailbox
    ((∃ size name, KernelCall.mach_msg_receive size name ∈ r.calls) ↔ backend.rx_buffer = none)
      ∧ (∀ msg, backend.rx_buffer = some msg →
          r.calls = [] ∧ r.mailbox = mailbox
            ∧ (∃ offset length : Nat, r.data = (msg.payload.drop offset).take length)
            ∧ (r.backend.rx_buffer = some msg ∨ r.backend.rx_buffer = none))
      ∧ (∀ msg, backend.rx_buffer = none → r.backend.rx_buffer = some msg →
          (∃ ret, (ret, msg) ∈ mailbox)
            ∧ ∃ offset length : Nat, r.data = (msg.payload.drop offset).take length) := by
  intro r
  have hr : r = _frida_pipe_input_stream_read K backend buffer_length cancellable mailbox := rfl
  clear_value r
  cases hbuf : backend.rx_buffer with
  | some pending =>
    rw [read_of_pending K backend pending hbuf] at hr
    obtain ⟨h1, h2, h3, h4⟩ := read_copy_buffer backend buffer_length mailbox []
    rw [← hr] at h1 h2 h3 h4
    refine ⟨?_, ?_, ?_⟩
    · rw [h4]
      simp
    · intro msg hmsg
      cases hmsg
      refine ⟨h4, h3, h2 pending hbuf, ?_⟩
      rw [hbuf] at h1
      exact h1
    · intro msg hmsg
      cases hmsg
  | none =>
    obtain ⟨size, calls, hcalls⟩ :=
      receive_loop_calls K backend.rx_port (sizeof_mach_msg_empty_rcv_t K) mailbox
    have hmem := receive_loop_mem K backend.rx_port mailbox (sizeof_mach_msg_empty_rcv_t K)
    rw [read_of_no_pending K backend hbuf buffer_length cancellable mailbox _ rfl] at hr
    generalize receive_loop K backend.rx_port (sizeof_mach_msg_empty_rcv_t K) mailbox = loop
      at hr hcalls hmem
    obtain ⟨loop_calls, outcome⟩ := loop
    simp only at hcalls hmem
    subst hcalls
    have hrecv : ∀ front : List KernelCall,
        ∃ size' name, KernelCall.mach_msg_receive size' name
          ∈ front ++ KernelCall.mach_msg_receive size backend.rx_port :: calls :=
      fun front => ⟨size, backend.rx_port, by simp⟩
    cases outcome with
    | none =>
      simp only at hr
      subst hr
      refine ⟨⟨fun _ => rfl, fun _ => hrecv _⟩, (fun msg h => by cases h), ?_⟩
      intro msg _ h
      rw [hbuf] at h
      cases h
    | some o =>
      obtain ⟨⟨ret, m⟩, rest⟩ := o
      have hm : (ret, m) ∈ mailbox := hmem (ret, m) rest rfl
      simp only at hr
      by_cases hret : ret = 0
      swap
      · rw [if_pos hret] at hr
        subst hr
        refine ⟨⟨fun _ => rfl, fun _ => hrecv _⟩, (fun msg h => by cases h), ?_⟩
        intro msg _ h
        rw [hbuf] at h
        cases h
      rw [if_neg (not_not.mpr hret)] at hr
      have hb1 : ∀ msg,
          (if m.header.msgh_id = 1 then with_pending backend m 0 m.size else backend).rx_buffer
            = some msg → msg = m := by
        intro msg h
        split at h
        · simp only [with_pending, Option.some.injEq] at h
          exact h.symm
        · rw [hbuf] at h
          cases h
      cases hcan : cancellable.any (fun c => c.cancelled) with
      | true =>
        rw [hcan, if_pos rfl] at hr
        subst hr
        refine ⟨⟨fun _ => rfl, fun _ => hrecv _⟩, (fun msg h => by cases h), ?_⟩
        intro msg _ h
        have := hb1 msg h
        subst this
        exact ⟨⟨ret, hm⟩, 0, 0, by simp⟩
      | false =>
        rw [hcan, if_neg (by simp)] at hr
        obtain ⟨h1, h2, _, h4⟩ := read_copy_buffer
          (if m.header.msgh_id = 1 then with_pending backend m 0 m.size else backend)
          buffer_length rest
          (g_cancellable_connect K backend cancellable
            ++ KernelCall.mach_msg_receive size backend.rx_port :: calls)
        rw [← hr] at h1 h2 h4
        refine ⟨⟨fun _ => rfl, fun _ => by rw [h4]; exact hrecv _⟩, (fun msg h => by cases h), ?_⟩
        intro msg _ h
        rcases h1 with h1 | h1
        · rw [h1] at h
          have := hb1 msg h
          subst this
          exact ⟨⟨ret, hm⟩, h2 msg h⟩
        · rw [h1] at h
          cases h

/-- The copy step on a pending buffer, for any `max_length`: the bytes at the
cursor, as many as asked for and at most those remaining; the buffer is
released exactly when nothing remains, and is otherwise the same datagram with
the cursor moved past the bytes returned. -/
theorem read_copy_pending_any (backend : FridaPipeBackend) (msg : FridaPipeMessage)
    (cur remaining : Nat) (buffer_length : Int) (mailbox : List Receive)
    (calls : List KernelCall) :
    read_copy (with_pending backend msg cur remaining) buffer_length mailbox calls
      = { n := some ((min (as_guint buffer_length) remaining : Nat) : Int)
          data := (msg.payload.drop cur).take (min (as_guint buffer_length) remaining)
          error := none
          backend :=
            if remaining ≤ as_guint buffer_length then without_pending backend
            else with_pending backend msg (cur + as_guint buffer_length)
              (remaining - as_guint buffer_length)
          mailbox := mailbox
          calls := calls } := by
  unfold read_copy as_guint
  generalize (buffer_length % 2 ^ 32).toNat = a
  simp only [with_pending, Option.map_some']
  by_cases h : a < remaining
  · have h1 : min a remaining = a := by omega
    have h2 : ¬ remaining ≤ a := by omega
    have h3 : ¬ remaining - a = 0 := by omega
    simp only [h, if_true, h1, h2, h3, if_false]
  · have h1 : min a remaining = remaining := by omega
    have h2 : remaining ≤ a := by omega
    simp only [h, if_false, h1, h2, if_true, Nat.sub_self, without_pending]

/-- A read on a pending buffer, for any `max_length` and token: the copy step
alone, with no call issued and the mailbox left as it is. -/
theorem read_pending_any (K : Mach) (backend : FridaPipeBackend) (msg : FridaPipeMessage)
    (cur remaining : Nat) (buffer_length : Int) (cancellable : Option GCancellable)
    (mailbox : List Receive) :
    _frida_pipe_input_stream_read K (with_pending backend msg cur remaining) buffer_length
        cancellable mailbox
      = { n := some ((min (as_guint buffer_length) remaining : Nat) : Int)
          data := (msg.payload.drop cur).take (min (as_guint buffer_length) remaining)
          error := none
          backend :=
            if remaining ≤ as_guint buffer_length then without_pending backend
            else with_pending backend msg (cur + as_guint buffer_length)
              (remaining - as_guint buffer_length)
          mailbox := mailbox
          calls := [] } := by
  rw [read_of_pending K (with_pending backend msg cur remaining) msg rfl]
  exact read_copy_pending_any backend msg cur remaining buffer_length mailbox []

/-- The bytes asked for by the first `j + 1` calls. -/
theorem bytes_requested_succ (call : Int × Option GCancellable)
    (calls : List (Int × Option GCancellable)) (j : Nat) :
    bytes_requested (call :: calls) (j + 1) = as_guint call.1 + bytes_requested calls j := by
  simp only [bytes_requested, List.take_succ_cons, List.map_cons, List.sum_cons]

/-- A series of reads has one result per call. -/
theorem read_series_length (K : Mach) (calls : List (Int × Option GCancellable)) :
    ∀ (backend : FridaPipeBackend) (mailbox : List Receive),
      (read_series K calls backend mailbox).length = calls.length := by
  induction calls with
  | nil => intro _ _; rfl
  | cons call calls ih =>
    intro backend mailbox
    simp only [read_series, List.length_cons, ih]

/-- A series of reads on a pending buffer: as long as the calls before it asked
for fewer bytes than the buffer held, a call is served from the buffer at the
offset those calls reached. -/
theorem read_series_pending (K : Mach) (base : FridaPipeBackend) (msg : FridaPipeMessage)
    (mailbox : List Receive) (calls : List (Int × Option GCancellable)) :
    ∀ (cur remaining j : Nat) (call : Int × Option GCancellable),
      calls[j]? = some call → bytes_requested calls j < remaining →
      (read_series K calls (with_pending base msg cur remaining) mailbox)[j]?
        = some
            { n := some ((min (as_guint call.1) (remaining - bytes_requested calls j) : Nat) : Int)
              data := (msg.payload.drop (cur + bytes_requested calls j)).take
                (min (as_guint call.1) (remaining - bytes_requested calls j))
              error := none
              backend :=
                if remaining - bytes_requested calls j ≤ as_guint call.1 then
                  without_pending base
                else with_pending base msg (cur + bytes_requested calls j + as_guint call.1)
                  (remaining - bytes_requested calls j - as_guint call.1)
              mailbox := mailbox
              calls := [] } := by
  induction calls with
  | nil =>
    intro cur remaining j call hcall _
    simp at hcall
  | cons c calls ih =>
    intro cur remaining j call hcall hsum
    obtain ⟨len, tok⟩ := c
    have hstep := read_pending_any K base msg cur remaining len tok mailbox
    cases j with
    | zero =>
      simp only [List.getElem?_cons_zero, Option.some.injEq] at hcall
      subst hcall
      have h0 : bytes_requested ((len, tok) :: calls) 0 = 0 := rfl
      simp only [read_series, List.getElem?_cons_zero, hstep, h0, Nat.sub_zero, Nat.add_zero]
    | succ j =>
      simp only [List.getElem?_cons_succ] at hcall
      have hs := bytes_requested_succ (len, tok) calls j
      simp only [] at hs
      rw [hs] at hsum ⊢
      have hnot : ¬ remaining ≤ as_guint len := by omega
      simp only [read_series, List.getElem?_cons_succ, hstep, if_neg hnot]
      rw [ih (cur + as_guint len) (remaining - as_guint len) j call hcall (by omega)]
      have e1 : remaining - as_guint len - bytes_requested calls j
          = remaining - (as_guint len + bytes_requested calls j) := by omega
      have e2 : cur + as_guint len + bytes_requested calls j
          = cur + (as_guint len + bytes_requested calls j) := by omega
      rw [e1, e2]

/-- In a series of reads on a pending buffer, a call that issues a receive
comes after calls that asked for all the bytes the buffer held. -/
theorem read_series_fetch (K : Mach) (base : FridaPipeBackend) (msg : FridaPipeMessage)
    (mailbox : List Receive) (calls : List (Int × Option GCancellable))
    (cur remaining j : Nat) (later : ReadResult)
    (hlater : (read_series K calls (with_pending base msg cur remaining) mailbox)[j]? = some later)
    (hfetch : ∃ size name, KernelCall.mach_msg_receive size name ∈ later.calls) :
    remaining ≤ bytes_requested calls j := by
  by_contra hlt
  have hj : j < calls.length := by
    have h := (List.getElem?_eq_some.mp hlater).1
    rwa [read_series_length] at h
  have hcall : calls[j]? = some calls[j] := List.getElem?_eq_getElem hj
  rw [read_series_pending K base msg mailbox calls cur remaining j _ hcall (by omega)] at hlater
  simp only [Option.some.injEq] at hlater
  obtain ⟨size, name, hmem⟩ := hfetch
  rw [← hlater] at hmem
  simp at hmem

/-- A read that starts with no pending buffer consumes the answers of the
kernel up to the first that is not "too large", and that one datagram alone: a
data frame received with status 0 becomes the pending buffer, whole and with
the cursor at its first payload byte, and the bytes returned are its first
bytes; any other answer leaves the backend with no pending buffer and returns
no byte. -/
theorem read_fetches_one_datagram (K : Mach) (base : FridaPipeBackend) (buffer_length : Int)
    (cancellable : Option GCancellable) (pre : List Receive)
    (hpre : ∀ e ∈ pre, e.1 = K.MACH_RCV_TOO_LARGE) (ret : Int) (msg : FridaPipeMessage)
    (hret : ret ≠ K.MACH_RCV_TOO_LARGE) (rest : List Receive) :
    (_frida_pipe_input_stream_read K (without_pending base) buffer_length cancellable
        (pre ++ (ret, msg) :: rest)).mailbox = rest
      ∧ (_frida_pipe_input_stream_read K (without_pending base) buffer_length cancellable
          (pre ++ (ret, msg) :: rest)).backend
        = (if ret = 0 ∧ msg.header.msgh_id = 1 then
            (if cancellable.any (fun c => c.cancelled) then with_pending base msg 0 msg.size
              else if msg.size ≤ as_guint buffer_length then without_pending base
              else with_pending base msg (0 + as_guint buffer_length)
                (msg.size - as_guint buffer_length))
          else without_pending base)
      ∧ (_frida_pipe_input_stream_read K (without_pending base) buffer_length cancellable
          (pre ++ (ret, msg) :: rest)).data
        = (if ret = 0 ∧ msg.header.msgh_id = 1 ∧ cancellable.any (fun c => c.cancelled) = false
            then (msg.payload.drop 0).take (min (as_guint buffer_length) msg.size)
          else []) := by
  have hloop := receive_loop_result K base.rx_port pre hpre ret msg hret rest
    (sizeof_mach_msg_empty_rcv_t K)
  rw [read_of_no_pending K (without_pending base) rfl buffer_length cancellable _ _ rfl]
  have hrx : (without_pending base).rx_port = base.rx_port := rfl
  rw [hrx, hloop]
  simp only []
  have hw : with_pending (without_pending base) msg 0 msg.size
      = with_pending base msg 0 msg.size := rfl
  rw [hw]
  by_cases h0 : ret = 0
  swap
  · simp only [ne_eq, h0, not_false_eq_true, if_true, false_and, if_false, and_self]
  subst h0
  by_cases hid : msg.header.msgh_id = 1
  · cases hcan : cancellable.any (fun c => c.cancelled) with
    | true =>
      simp [hid]
    | false =>
      simp only [ne_eq, not_true_eq_false, if_false, hid, if_true, Bool.false_eq_true,
        and_self, read_copy_pending_any]
  · have hempty : read_copy (without_pending base) buffer_length rest
        (g_cancellable_connect K (without_pending base) cancellable
          ++ (receive_loop K base.rx_port (sizeof_mach_msg_empty_rcv_t K)
                (pre ++ (0, msg) :: rest)).1)
        = { n := some 0, data := [], error := none, backend := without_pending base,
            mailbox := rest,
            calls := g_cancellable_connect K (without_pending base) cancellable
              ++ (receive_loop K base.rx_port (sizeof_mach_msg_empty_rcv_t K)
                    (pre ++ (0, msg) :: rest)).1 } := by
      unfold read_copy
      generalize (buffer_length % 2 ^ 32).toNat = a
      simp [without_pending]
    cases hcan : cancellable.any (fun c => c.cancelled) with
    | true => simp [hid]
    | false => simp [hid, hempty]

/-- C3: `_frida_pipe_input_stream_read` issues a receive if and only if the
backend holds no pending buffer on entry.  With a pending buffer it issues no
call at all and leaves the mailbox untouched, the bytes it returns are a piece
of the payload of that one datagram, and afterwards the pending buffer is
either the same datagram or released.  A pending buffer that exists after a
read that started without one is one of the datagrams received by that read,
and the bytes returned are a piece of its payload.

More exactly, a read on a pending buffer with the cursor at `cur` and
`remaining` bytes left returns the `min max_length remaining` bytes at `cur`;
it releases the buffer exactly when `remaining <= max_length` (all that
remained was returned), and otherwise keeps the same datagram with the cursor
moved past the bytes returned and `remaining` reduced by them.  In a series of
reads on that buffer, every call before which fewer than `remaining` bytes
were asked for is served in this way from the offset the earlier calls
reached, and a call of the series that issues a receive comes after calls that
asked for at least `remaining` bytes.  A read that starts with no pending
buffer takes, besides "too large" answers, one answer of the kernel: a data
frame received with status 0 becomes the pending buffer, whole and with the
cursor at its first payload byte, and any other answer leaves no pending
buffer and returns no byte. -/
theorem read_receives_iff_no_pending (K : Mach) (backend : FridaPipeBackend)
    (buffer_length : Int) (cancellable : Option GCancellable) (mailbox : List Receive) :
    let r := _frida_pipe_input_stream_read K backend buffer_length cancellable mailbox
    ((∃ size name, KernelCall.mach_msg_receive size name ∈ r.calls) ↔ backend.rx_buffer = none)
      ∧ (∀ msg, backend.rx_buffer = some msg →
          r.calls = [] ∧ r.mailbox = mailbox
            ∧ (∃ offset length : Nat, r.data = (msg.payload.drop offset).take length)
            ∧ (r.backend.rx_buffer = some msg ∨ r.backend.rx_buffer = none))
      ∧ (∀ msg, backend.rx_buffer = none → r.backend.rx_buffer = some msg →
          (∃ ret, (ret, msg) ∈ mailbox)
            ∧ ∃ offset length : Nat, r.data = (msg.payload.drop offset).take length)
      ∧ (∀ (msg : FridaPipeMessage) (cur remaining : Nat),
          _frida_pipe_input_stream_read K (with_pending backend msg cur remaining) buffer_length
              cancellable mailbox
            = { n := some ((min (as_guint buffer_length) remaining : Nat) : Int)
                data := (msg.payload.drop cur).take (min (as_guint buffer_length) remaining)
                error := none
                backend :=
                  if remaining ≤ as_guint buffer_length then without_pending backend
                  else with_pending backend msg (cur + as_guint buffer_length)
                    (remaining - as_guint buffer_length)
                mailbox := mailbox
                calls := [] })
      ∧ (∀ (msg : FridaPipeMessage) (cur remaining : Nat)
          (calls : List (Int × Option GCancellable)) (j : Nat) (call : Int × Option GCancellable),
          calls[j]? = some call → bytes_requested calls j < remaining →
          (read_series K calls (with_pending backend msg cur remaining) mailbox)[j]?
            = some
                { n := some
                    ((min (as_guint call.1) (remaining - bytes_requested calls j) : Nat) : Int)
                  data := (msg.payload.drop (cur + bytes_requested calls j)).take
                    (min (as_guint call.1) (remaining - bytes_requested calls j))
                  error := none
                  backend :=
                    if remaining - bytes_requested calls j ≤ as_guint call.1 then
                      without_pending backend
                    else
                      with_pending backend msg (cur + bytes_requested calls j + as_guint call.1)
                        (remaining - bytes_requested calls j - as_guint call.1)
                  mailbox := mailbox
                  calls := [] })
      ∧ (∀ (msg : FridaPipeMessage) (cur remaining : Nat)
          (calls : List (Int × Option GCancellable)) (j : Nat) (later : ReadResult),
          (read_series K calls (with_pending backend msg cur remaining) mailbox)[j]? = some later →
          (∃ size name, KernelCall.mach_msg_receive size name ∈ later.calls) →
          remaining ≤ bytes_requested calls j)
      ∧ (∀ (pre : List Receive) (ret : Int) (msg : FridaPipeMessage) (rest : List Receive),
          (∀ e ∈ pre, e.1 = K.MACH_RCV_TOO_LARGE) → ret ≠ K.MACH_RCV_TOO_LARGE →
          (_frida_pipe_input_stream_read K (without_pending backend) buffer_length cancellable
              (pre ++ (ret, msg) :: rest)).mailbox = rest
            ∧ (_frida_pipe_input_stream_read K (without_pending backend) buffer_length
                cancellable (pre ++ (ret, msg) :: rest)).backend
              = (if ret = 0 ∧ msg.header.msgh_id = 1 then
                  (if cancellable.any (fun c => c.cancelled) then
                    with_pending backend msg 0 msg.size
                  else if msg.size ≤ as_guint buffer_length then without_pending backend
                  else with_pending backend msg (0 + as_guint buffer_length)
                    (msg.size - as_guint buffer_length))
                else without_pending backend)
            ∧ (_frida_pipe_input_stream_read K (without_pending backend) buffer_length
                cancellable (pre ++ (ret, msg) :: rest)).data
              = (if ret = 0 ∧ msg.header.msgh_id = 1
                    ∧ cancellable.any (fun c => c.cancelled) = false
                  then (msg.payload.drop 0).take (min (as_guint buffer_length) msg.size)
                else [])) := by
  intro r
  refine ⟨?_, ?_, ?_,
    fun msg cur remaining =>
      read_pending_any K backend msg cur remaining buffer_length cancellable mailbox,
    fun msg cur remaining calls j call =>
      read_series_pending K backend msg mailbox calls cur remaining j call,
    fun msg cur remaining calls j later =>
      read_series_fetch K backend msg mailbox calls cur remaining j later,
    fun pre ret msg rest hpre hret =>
      read_fetches_one_datagram K backend buffer_length cancellable pre hpre ret msg hret rest⟩
  all_goals
    have hold := read_pending_or_received K backend buffer_length cancellable mailbox
  · exact hold.1
  · exact hold.2.1
  · exact hold.2.2

/-- Witness of `read_receives_iff_no_pending`: the datagrams of a six-byte and
of a two-byte write are delivered and read four bytes at a time.  The first
read fetches the first datagram and returns 1 .. 4, the second returns 5, 6
from the pending buffer without a receive, and only the third fetches the
second datagram. -/
theorem read_receives_iff_no_pending_witness :
    (read_series darwin [(4, none), (4, none), (4, none)] example_backend
          [(0, six_byte_frame), (0, two_byte_frame)]).map (fun r => (r.n, r.data, r.calls))
        = [(some 4, [1, 2, 3, 4], [KernelCall.mach_msg_receive 32 0x1503]),
           (some 2, [5, 6], []),
           (some 2, [7, 8], [KernelCall.mach_msg_receive 32 0x1503])]
      ∧ (read_series darwin [(4, none), (4, none), (4, none)]
            (with_pending example_backend six_byte_frame 0 6) [(0, two_byte_frame)])[1]?
          = some
              { n := some
                  ((min (as_guint ((4 : Int), (none : Option GCancellable)).1)
                    (6 - bytes_requested [(4, none), (4, none), (4, none)] 1) : Nat) : Int)
                data := (six_byte_frame.payload.drop
                    (0 + bytes_requested [(4, none), (4, none), (4, none)] 1)).take
                  (min (as_guint ((4 : Int), (none : Option GCancellable)).1)
                    (6 - bytes_requested [(4, none), (4, none), (4, none)] 1))
                error := none
                backend :=
                  if 6 - bytes_requested [(4, none), (4, none), (4, none)] 1
                      ≤ as_guint ((4 : Int), (none : Option GCancellable)).1 then
                    without_pending example_backend
                  else
                    with_pending example_backend six_byte_frame
                      (0 + bytes_requested [(4, none), (4, none), (4, none)] 1
                        + as_guint ((4 : Int), (none : Option GCancellable)).1)
                      (6 - bytes_requested [(4, none), (4, none), (4, none)] 1
                        - as_guint ((4 : Int), (none : Option GCancellable)).1)
                mailbox := [(0, two_byte_frame)]
                calls := [] }
      ∧ 6 ≤ bytes_requested [(4, none), (4, none), (4, none)] 2 :=
  ⟨by decide,
    (read_receives_iff_no_pending darwin example_backend 4 none [(0, two_byte_frame)]).2.2.2.2.1
      six_byte_frame 0 6 [(4, none), (4, none), (4, none)] 1 (4, none) rfl (by decide),
    (read_receives_iff_no_pending darwin example_backend 4 none [(0, two_byte_frame)]).2.2.2.2.2.1
      six_byte_frame 0 6 [(4, none), (4, none), (4, none)] 2
      { n := some 2, data := [7, 8], error := none, backend := without_pending example_backend,
        mailbox := [], calls := [KernelCall.mach_msg_receive 32 0x1503] }
      (by decide) ⟨32, 0x1503, by decide⟩⟩

/-- Witness of `data_round_trip`: 10000 bytes written, read 16 at a time; the
kernel first answers "too large", then delivers the datagram; 625 reads. -/
theorem data_round_trip_witness :
    let b : List Nat := List.replicate 10000 0
    let sent := write_message darwin example_backend b (fun _ => 0)
    ((if b.length = 0 then 1 else (b.length + 16 - 1) / 16) = 625)
    ∧ (let count := if b.length = 0 then 1 else (b.length + 16 - 1) / 16
      let reads := read_repeat darwin (16 : Nat) none count example_backend
        ([(darwin.MACH_RCV_TOO_LARGE, sent)] ++ (0, sent) :: [])
      (_frida_pipe_output_stream_write darwin example_backend b (fun _ => 0) (fun _ => 0)).n
          = (b.length : Int)
        ∧ reads.1 = (List.range count).map
          (fun i => (some ((min 16 (b.length - i * 16) : Nat) : Int), (b.drop (i * 16)).take 16))
        ∧ (reads.1.map Prod.snd).flatten = b
        ∧ (∀ i, i < count → ((b.drop (i * 16)).take 16).length = min 16 (b.length - i * 16))
        ∧ reads.2 = (without_pending example_backend, [])
        ∧ (∀ j, 0 < j → j < count →
            (read_repeat darwin (16 : Nat) none j example_backend
                ([(darwin.MACH_RCV_TOO_LARGE, sent)] ++ (0, sent) :: [])).2
              = (with_pending example_backend sent (j * 16) (b.length - j * 16), []))) := by
  intro b sent
  have hb : b.length = 10000 := List.length_replicate 10000 0
  refine ⟨by rw [hb]; decide, ?_⟩
  exact data_round_trip darwin example_backend example_backend b (fun _ => 0) (fun _ => 0) 16
    none [(darwin.MACH_RCV_TOO_LARGE, sent)] sent sent []
    (by rw [hb]; decide) (by decide) (by decide) rfl
    (by simp [_frida_pipe_output_stream_write, sent]) rfl rfl rfl
    (by simp) (by decide) rfl rfl

/-- A backend as `_frida_pipe_create_backend` returns it has no pending buffer. -/
theorem create_backend_no_pending (address : String) (queue source : Nat)
    (backend : FridaPipeBackend)
    (h : _frida_pipe_create_backend address queue source = some backend) :
    backend.rx_buffer = none ∧ backend.rx_buffer_cur = none ∧ backend.rx_buffer_length = 0 := by
  unfold _frida_pipe_create_backend at h
  generalize sscanf_address address = scanned at h
  obtain ⟨assigned, rx, tx⟩ := scanned
  cases rx <;> cases tx <;> simp only at h <;> try cases h
  split at h
  · cases h
    exact ⟨rfl, rfl, rfl⟩
  · cases h

/-- The backend built from an address formatted from two 32 bit names. -/
theorem create_backend_of_format_address (rx tx : Nat) (hrx : rx < 2 ^ 32)
    (htx : tx < 2 ^ 32) (queue source : Nat) :
    _frida_pipe_create_backend (format_address rx tx) queue source
      = some
          { dispatch_queue := queue
            rx_port := rx
            tx_port := tx
            rx_buffer := none
            rx_buffer_cur := none
            rx_buffer_length := 0
            monitor_source := some source } := by
  have h := sscanf_address_of_data _ _ _ (format_address_data rx tx)
  rw [create_backend_of_scan _ queue source _ _ h]
  have e1 := to_int32_range (rx : Int)
  have e2 := to_int32_range (tx : Int)
  rw [to_int32_of_range _ e1.1 e1.2, to_int32_of_range _ e2.1 e2.2,
    to_uint32_to_int32 rx hrx, to_uint32_to_int32 tx htx]

/-- The copy step keeps the pending-buffer fields in one of the two shapes and
leaves no buffer with nothing remaining. -/
theorem read_copy_state (backend : FridaPipeBackend) (buffer_length : Int)
    (mailbox : List Receive) (calls : List KernelCall) (h : buffer_state_ok backend) :
    buffer_state_ok (read_copy backend buffer_length mailbox calls).backend
      ∧ ((read_copy backend buffer_length mailbox calls).backend.rx_buffer_length = 0 →
          (read_copy backend buffer_length mailbox calls).backend.rx_buffer = none
            ∧ (read_copy backend buffer_length mailbox calls).backend.rx_buffer_cur = none) := by
  obtain ⟨q, rx, tx, buf, cur, len, mon⟩ := backend
  unfold read_copy
  generalize (buffer_length % 2 ^ 32).toNat = a
  simp only []
  split_ifs with h1 h2 h3
  · exact ⟨Or.inl ⟨rfl, rfl, rfl⟩, fun _ => ⟨rfl, rfl⟩⟩
  · refine ⟨?_, fun h0 => absurd h0 h2⟩
    rcases h with ⟨hb, hc, hl⟩ | ⟨msg, c, hb, hc⟩
    · simp only at hl
      omega
    · simp only at hb hc
      subst hb hc
      exact Or.inr ⟨msg, c + a, rfl, rfl⟩
  · exact ⟨Or.inl ⟨rfl, rfl, rfl⟩, fun _ => ⟨rfl, rfl⟩⟩
  · exact absurd (Nat.sub_self len) h3

/-- One read keeps the pending-buffer fields in one of the two shapes, and
either leaves no buffer with nothing remaining or has kept a zero-byte frame
while reporting cancellation. -/
theorem read_state (K : Mach) (backend : FridaPipeBackend) (buffer_length : Int)
    (cancellable : Option GCancellable) (mailbox : List Receive)
    (h : buffer_state_ok backend) :
    buffer_state_ok
        (_frida_pipe_input_stream_read K backend buffer_length cancellable mailbox).backend
      ∧ (((_frida_pipe_input_stream_read K backend buffer_length cancellable
              mailbox).backend.rx_buffer_length = 0 →
            (_frida_pipe_input_stream_read K backend buffer_length cancellable
                mailbox).backend.rx_buffer = none
              ∧ (_frida_pipe_input_stream_read K backend buffer_length cancellable
                  mailbox).backend.rx_buffer_cur = none)
          ∨ kept_zero_byte_frame
              (_frida_pipe_input_stream_read K backend buffer_length cancellable mailbox)) := by
  cases hbuf : backend.rx_buffer with
  | some pending =>
    rw [read_of_pending K backend pending hbuf]
    obtain ⟨h1, h2⟩ := read_copy_state backend buffer_length mailbox [] h
    exact ⟨h1, Or.inl h2⟩
  | none =>
    have hnull : backend.rx_buffer = none ∧ backend.rx_buffer_cur = none
        ∧ backend.rx_buffer_length = 0 := by
      rcases h with h | ⟨msg, cur, hb, _⟩
      · exact h
      · rw [hbuf] at hb
        cases hb
    obtain ⟨size, calls, hcalls⟩ :=
      receive_loop_calls K backend.rx_port (sizeof_mach_msg_empty_rcv_t K) mailbox
    rw [read_of_no_pending K backend hbuf buffer_length cancellable mailbox _ rfl]
    generalize receive_loop K backend.rx_port (sizeof_mach_msg_empty_rcv_t K) mailbox = loop
      at hcalls
    obtain ⟨loop_calls, outcome⟩ := loop
    simp only at hcalls
    subst hcalls
    cases outcome with
    | none => exact ⟨h, Or.inl fun _ => ⟨hnull.1, hnull.2.1⟩⟩
    | some o =>
      obtain ⟨⟨ret, m⟩, rest⟩ := o
      simp only []
      by_cases hret : ret = 0
      swap
      · rw [if_pos hret]
        exact ⟨h, Or.inl fun _ => ⟨hnull.1, hnull.2.1⟩⟩
      rw [if_neg (not_not.mpr hret)]
      have hstored : buffer_state_ok
          (if m.header.msgh_id = 1 then with_pending backend m 0 m.size else backend) := by
        split
        · exact Or.inr ⟨m, 0, rfl, rfl⟩
        · exact h
      cases hcan : cancellable.any (fun c => c.cancelled) with
      | false =>
        rw [if_neg (by simp)]
        obtain ⟨h1, h2⟩ := read_copy_state _ buffer_length rest
          (g_cancellable_connect K backend cancellable
            ++ KernelCall.mach_msg_receive size backend.rx_port :: calls) hstored
        exact ⟨h1, Or.inl h2⟩
      | true =>
        rw [if_pos rfl]
        refine ⟨hstored, ?_⟩
        by_cases hid : m.header.msgh_id = 1
        · by_cases hsize : m.size = 0
          · right
            refine ⟨rfl, rfl, ⟨size, backend.rx_port, by simp⟩, m, hid, hsize, ?_, ?_, ?_⟩
            · simp only [hid, if_true, with_pending]
            · simp only [hid, if_true, with_pending]
            · simp only [hid, if_true, with_pending, hsize]
          · left
            intro h0
            simp only [hid, if_true, with_pending] at h0
            exact absurd h0 hsize
        · left
          intro _
          simp only [hid, if_false]
          exact ⟨hnull.1, hnull.2.1⟩

/-- Every read of a series that starts in one of the two shapes either leaves
no buffer with nothing remaining or has kept a zero-byte frame while reporting
cancellation. -/
theorem read_series_state (K : Mach) (calls : List (Int × Option GCancellable)) :
    ∀ (backend : FridaPipeBackend) (mailbox : List Receive), buffer_state_ok backend →
      ∀ r ∈ read_series K calls backend mailbox,
        (r.backend.rx_buffer_length = 0 →
            r.backend.rx_buffer = none ∧ r.backend.rx_buffer_cur = none)
          ∨ kept_zero_byte_frame r := by
  induction calls with
  | nil =>
    intro backend mailbox _ r hr
    simp [read_series] at hr
  | cons call calls ih =>
    intro backend mailbox h r hr
    obtain ⟨buffer_length, cancellable⟩ := call
    obtain ⟨h1, h2⟩ := read_state K backend buffer_length cancellable mailbox h
    simp only [read_series, List.mem_cons] at hr
    rcases hr with hr | hr
    · rw [hr]
      exact h2
    · exact ih _ _ h1 r hr

/-- A read on a pending buffer with nothing remaining releases it, copies no
byte, issues no call and leaves the mailbox alone. -/
theorem read_of_drained_pending (K : Mach) (backend : FridaPipeBackend)
    (msg : FridaPipeMessage) (cur : Nat) (buffer_length : Int)
    (cancellable : Option GCancellable) (mailbox : List Receive) :
    _frida_pipe_input_stream_read K (with_pending backend msg cur 0) buffer_length cancellable
        mailbox
      = { n := some 0, data := [], error := none, backend := without_pending backend,
          mailbox := mailbox, calls := [] } := by
  rw [read_of_pending K (with_pending backend msg cur 0) msg rfl]
  unfold read_copy
  generalize (buffer_length % 2 ^ 32).toNat = a
  simp [with_pending, without_pending]

/-- C11, as stated, fails: on a backend created from an address, a read whose
token is cancelled and whose receive yields the datagram of a zero-byte write
returns with nothing remaining but with the buffer and the cursor still set. -/
theorem zero_byte_frame_breaks_invariant :
    _frida_pipe_create_backend (format_address 0x1503 0x1603) 1 7 = some example_backend
      ∧ ¬ ((_frida_pipe_input_stream_read darwin example_backend 16
                (some { cancelled := true })
                [(darwin.MACH_RCV_TOO_LARGE, zero_byte_frame),
                  (0, zero_byte_frame)]).backend.rx_buffer_length = 0 →
            (_frida_pipe_input_stream_read darwin example_backend 16
                (some { cancelled := true })
                [(darwin.MACH_RCV_TOO_LARGE, zero_byte_frame),
                  (0, zero_byte_frame)]).backend.rx_buffer = none
              ∧ (_frida_pipe_input_stream_read darwin example_backend 16
                  (some { cancelled := true })
                  [(darwin.MACH_RCV_TOO_LARGE, zero_byte_frame),
                    (0, zero_byte_frame)]).backend.rx_buffer_cur = none) :=
  ⟨create_backend_of_format_address 0x1503 0x1603 (by decide) (by decide) 1 7, by decide⟩

/-- C11, amended: on a backend created by `_frida_pipe_create_backend`, after
every call of a series of reads, whatever its outcome and whatever was
received, `remaining == 0` implies that the buffer and the cursor are null,
unless that call reported cancellation (-1) having itself received a data
frame (identifier 1) with a zero-byte payload: then that frame is the pending
buffer, with the cursor at its payload and nothing remaining.  A read that
starts in such a state releases the buffer: it returns 0 bytes and issues no
call. -/
theorem pending_buffer_invariant (K : Mach) (address : String) (queue source : Nat)
    (backend : FridaPipeBackend)
    (hcreate : _frida_pipe_create_backend address queue source = some backend)
    (calls : List (Int × Option GCancellable)) (mailbox : List Receive) :
    (∀ r ∈ read_series K calls backend mailbox,
        (r.backend.rx_buffer_length = 0 →
            r.backend.rx_buffer = none ∧ r.backend.rx_buffer_cur = none)
          ∨ (r.n = some (-1) ∧ r.error = some GError.cancelled
              ∧ (∃ size name, KernelCall.mach_msg_receive size name ∈ r.calls)
              ∧ ∃ msg : FridaPipeMessage, msg.header.msgh_id = 1 ∧ msg.size = 0
                  ∧ r.backend.rx_buffer = some msg ∧ r.backend.rx_buffer_cur = some 0
                  ∧ r.backend.rx_buffer_length = 0))
      ∧ (∀ (state : FridaPipeBackend) (msg : FridaPipeMessage) (cur : Nat)
          (buffer_length : Int) (cancellable : Option GCancellable) (pending : List Receive),
          _frida_pipe_input_stream_read K (with_pending state msg cur 0) buffer_length
              cancellable pending
            = { n := some 0, data := [], error := none, backend := without_pending state,
                mailbox := pending, calls := [] }) :=
  ⟨read_series_state K calls backend mailbox
      (Or.inl (create_backend_no_pending address queue source backend hcreate)),
    read_of_drained_pending K⟩

/-- Witness of `pending_buffer_invariant`: a cancelled read that receives the
datagram of a zero-byte write, then a plain read. -/
theorem pending_buffer_invariant_witness :
    _frida_pipe_create_backend (format_address 0x1503 0x1603) 1 7 = some example_backend
    ∧ ((∀ r ∈ read_series darwin [(16, some { cancelled := true }), (16, none)] example_backend
            [(darwin.MACH_RCV_TOO_LARGE, zero_byte_frame), (0, zero_byte_frame)],
        (r.backend.rx_buffer_length = 0 →
            r.backend.rx_buffer = none ∧ r.backend.rx_buffer_cur = none)
          ∨ (r.n = some (-1) ∧ r.error = some GError.cancelled
              ∧ (∃ size name, KernelCall.mach_msg_receive size name ∈ r.calls)
              ∧ ∃ msg : FridaPipeMessage, msg.header.msgh_id = 1 ∧ msg.size = 0
                  ∧ r.backend.rx_buffer = some msg ∧ r.backend.rx_buffer_cur = some 0
                  ∧ r.backend.rx_buffer_length = 0))
      ∧ (∀ (state : FridaPipeBackend) (msg : FridaPipeMessage) (cur : Nat)
          (buffer_length : Int) (cancellable : Option GCancellable) (pending : List Receive),
          _frida_pipe_input_stream_read darwin (with_pending state msg cur 0) buffer_length
              cancellable pending
            = { n := some 0, data := [], error := none, backend := without_pending state,
                mailbox := pending, calls := [] })) :=
  ⟨create_backend_of_format_address 0x1503 0x1603 (by decide) (by decide) 1 7,
    pending_buffer_invariant darwin (format_address 0x1503 0x1603) 1 7 example_backend
      (create_backend_of_format_address 0x1503 0x1603 (by decide) (by decide) 1 7)
      [(16, some { cancelled := true }), (16, none)]
      [(darwin.MACH_RCV_TOO_LARGE, zero_byte_frame), (0, zero_byte_frame)]⟩

/-! ### Data received under a cancelled token -/

/-- Reads of at most `k` bytes on a pending frame that carries `p`: the pieces
of `p`, then no pending buffer. -/
theorem read_repeat_pending_payload (K : Mach) (backend : FridaPipeBackend)
    (msg : FridaPipeMessage) (p pad : List Nat) (hpayload : msg.payload = p ++ pad)
    (k : Nat) (hk1 : 1 ≤ k) (hk2 : k < 2 ^ 31) (token : Option GCancellable)
    (mailbox : List Receive) :
    read_repeat K k token (if p.length = 0 then 1 else (p.length + k - 1) / k)
        (with_pending backend msg 0 p.length) mailbox
      = ((List.range (if p.length = 0 then 1 else (p.length + k - 1) / k)).map
            (fun i => (some ((min k (p.length - i * k) : Nat) : Int), (p.drop (i * k)).take k)),
          without_pending backend, mailbox) := by
  refine (read_repeat_pending K backend msg k hk1 hk2 token mailbox p.length 0).trans ?_
  congr 1
  apply List.map_congr_left
  intro i hi
  have hik : i * k ≤ p.length := reads_needed_index k p.length i hk1 (List.mem_range.mp hi)
  rw [hpayload, Nat.zero_add, payload_piece p pad k (i * k) hik]

/-- The copy step on a backend with no pending buffer returns no byte and
leaves the backend with no pending buffer. -/
theorem read_copy_no_buffer (backend : FridaPipeBackend) (hnone : backend.rx_buffer = none)
    (buffer_length : Int) (mailbox : List Receive) (calls : List KernelCall) :
    (read_copy backend buffer_length mailbox calls).backend.rx_buffer = none
      ∧ (read_copy backend buffer_length mailbox calls).data = []
      ∧ (read_copy backend buffer_length mailbox calls).mailbox = mailbox := by
  obtain ⟨q, rx, tx, buf, cur, len, mon⟩ := backend
  simp only at hnone
  subst hnone
  refine ⟨?_, ?_, rfl⟩
  · unfold read_copy
    simp only []
    split_ifs <;> rfl
  · simp only [read_copy]

/-- A read on a backend with no pending buffer whose receive yields, with
status 0, a frame whose identifier is not 1: the frame is consumed and freed,
nothing is stored and no byte is returned, whatever the token. -/
theorem read_of_other_frame (K : Mach) (backend : FridaPipeBackend)
    (hnone : backend.rx_buffer = none) (hK : K.MACH_RCV_TOO_LARGE ≠ 0)
    (pre : List Receive) (hpre : ∀ e ∈ pre, e.1 = K.MACH_RCV_TOO_LARGE)
    (frame : FridaPipeMessage) (hid : frame.header.msgh_id ≠ 1) (length : Int)
    (any_token : Option GCancellable) (after : List Receive) :
    (_frida_pipe_input_stream_read K backend length any_token
        (pre ++ (0, frame) :: after)).backend.rx_buffer = none
      ∧ (_frida_pipe_input_stream_read K backend length any_token
          (pre ++ (0, frame) :: after)).data = []
      ∧ (_frida_pipe_input_stream_read K backend length any_token
          (pre ++ (0, frame) :: after)).mailbox = after := by
  have hloop := receive_loop_result K backend.rx_port pre hpre 0 frame (Ne.symm hK) after
    (sizeof_mach_msg_empty_rcv_t K)
  rw [read_of_no_pending K backend hnone length any_token _ _ rfl, hloop]
  have hne : ¬ frame.header.msgh_id = 1 := hid
  simp only [ne_eq, not_true_eq_false, if_false, hne]
  split
  · exact ⟨hnone, rfl, rfl⟩
  · exact read_copy_no_buffer backend hnone length after _

/-- C12, as stated, fails in its last clause: a frame received with status 0
whose identifier is 3 is discarded as well.  The read returns none of its four
payload bytes and the backend has no pending buffer afterwards, although the
identifier of the frame is not 2. -/
theorem frame_with_other_identifier_discarded :
    ¬ (((_frida_pipe_input_stream_read darwin example_backend 16 none
              [(0, other_frame)]).backend.rx_buffer = none
          ∧ (_frida_pipe_input_stream_read darwin example_backend 16 none
              [(0, other_frame)]).data = []
          ∧ (_frida_pipe_input_stream_read darwin example_backend 16 none
              [(0, other_frame)]).mailbox = [])
        → other_frame.header.msgh_id = 2) := by
  decide

/-- C12, amended: a read on a backend with no pending buffer, with a token in
the cancelled state, whose receive yields a data frame (identifier 1) with
payload `p`, returns -1 with the error "cancelled" and copies nothing, and the
frame is the pending buffer afterwards, with all of `p` remaining.  The reads
that follow (`max_length = k >= 1`, any token) return the pieces
`p[i*k .. i*k + k)` in order, whose concatenation is `p`; each of them starts
on that pending buffer and issues no call, and the mailbox is as the first read
left it.  A received frame with identifier 2 is never stored: the backend has
no pending buffer after the read, whatever the token.  The same holds for every
received frame whose identifier is not 1: it is consumed, the backend has no
pending buffer after the read and no byte of the frame is returned, whatever
the token. -/
theorem no_data_loss_on_cancellation (K : Mach) (backend : FridaPipeBackend)
    (first_length : Int) (k : Nat) (token : Option GCancellable)
    (pre rest : List Receive) (data_frame : FridaPipeMessage) (p pad : List Nat)
    (hnone : backend.rx_buffer = none)
    (hK : K.MACH_RCV_TOO_LARGE ≠ 0)
    (hpre : ∀ e ∈ pre, e.1 = K.MACH_RCV_TOO_LARGE)
    (hdata : data_frame.header.msgh_id = 1)
    (hsize : data_frame.size = p.length)
    (hpayload : data_frame.payload = p ++ pad)
    (hk1 : 1 ≤ k) (hk2 : k < 2 ^ 31) :
    let r1 := _frida_pipe_input_stream_read K backend first_length
      (some { cancelled := true }) (pre ++ (0, data_frame) :: rest)
    let count := if p.length = 0 then 1 else (p.length + k - 1) / k
    let reads := read_repeat K k token count r1.backend r1.mailbox
    (r1.n = some (-1) ∧ r1.error = some GError.cancelled ∧ r1.data = []
        ∧ r1.backend = with_pending backend data_frame 0 p.length ∧ r1.mailbox = rest)
      ∧ reads.1 = (List.range count).map
          (fun i => (some ((min k (p.length - i * k) : Nat) : Int), (p.drop (i * k)).take k))
      ∧ (reads.1.map Prod.snd).flatten = p
      ∧ reads.2 = (without_pending backend, rest)
      ∧ (∀ j, j < count →
          (read_repeat K k token j r1.backend r1.mailbox).2
              = (with_pending backend data_frame (j * k) (p.length - j * k), rest)
            ∧ (_frida_pipe_input_stream_read K
                (read_repeat K k token j r1.backend r1.mailbox).2.1 k token
                (read_repeat K k token j r1.backend r1.mailbox).2.2).calls = [])
      ∧ (∀ (frame : FridaPipeMessage) (length : Int) (any_token : Option GCancellable)
          (after : List Receive), frame.header.msgh_id = 2 →
          (_frida_pipe_input_stream_read K backend length any_token
              (pre ++ (0, frame) :: after)).backend.rx_buffer = none)
      ∧ (∀ (frame : FridaPipeMessage) (length : Int) (any_token : Option GCancellable)
          (after : List Receive), frame.header.msgh_id ≠ 1 →
          (_frida_pipe_input_stream_read K backend length any_token
              (pre ++ (0, frame) :: after)).backend.rx_buffer = none
            ∧ (_frida_pipe_input_stream_read K backend length any_token
                (pre ++ (0, frame) :: after)).data = []
            ∧ (_frida_pipe_input_stream_read K backend length any_token
                (pre ++ (0, frame) :: after)).mailbox = after) := by
  intro r1 count reads
  have hloop := receive_loop_result K backend.rx_port pre hpre 0 data_frame (Ne.symm hK) rest
    (sizeof_mach_msg_empty_rcv_t K)
  have h1 : r1 =
      { n := some (-1)
        data := []
        error := some GError.cancelled
        backend := with_pending backend data_frame 0 p.length
        mailbox := rest
        calls := g_cancellable_connect K backend (some { cancelled := true })
          ++ (receive_loop K backend.rx_port (sizeof_mach_msg_empty_rcv_t K)
                (pre ++ (0, data_frame) :: rest)).1 } := by
    show _frida_pipe_input_stream_read K backend first_length _ _ = _
    rw [read_of_no_pending K backend hnone first_length _ _ _ rfl, hloop]
    simp [hdata, hsize]
  have hb : r1.backend = with_pending backend data_frame 0 p.length := by rw [h1]
  have hm : r1.mailbox = rest := by rw [h1]
  have hreads : reads = ((List.range count).map
      (fun i => (some ((min k (p.length - i * k) : Nat) : Int), (p.drop (i * k)).take k)),
      without_pending backend, rest) := by
    show read_repeat K k token count r1.backend r1.mailbox = _
    rw [hb, hm]
    exact read_repeat_pending_payload K backend data_frame p pad hpayload k hk1 hk2 token rest
  refine ⟨⟨by rw [h1], by rw [h1], by rw [h1], hb, hm⟩, by rw [hreads], ?_, by rw [hreads],
    ?_, ?_, ?_⟩
  · rw [hreads]
    simp only [List.map_map]
    exact chunks_join k count p (reads_needed_cover k p.length hk1)
  · intro j hj
    rw [hb, hm, read_repeat_pending_before_last K backend data_frame k hk1 hk2 token rest j
      p.length 0 hj, Nat.zero_add]
    refine ⟨rfl, ?_⟩
    rw [read_of_pending K _ data_frame rfl]
    rfl
  · intro frame length any_token after hid
    have hne : frame.header.msgh_id ≠ 1 := by rw [hid]; decide
    exact (read_of_other_frame K backend hnone hK pre hpre frame hne length any_token after).1
  · intro frame length any_token after hid
    exact read_of_other_frame K backend hnone hK pre hpre frame hid length any_token after

/-- Witness of `no_data_loss_on_cancellation`: a frame carrying six bytes is
received under a cancelled token and then read four bytes at a time. -/
theorem no_data_loss_on_cancellation_witness :
    let data_frame := write_message darwin example_backend [1, 2, 3, 4, 5, 6] (fun _ => 0)
    let p : List Nat := [1, 2, 3, 4, 5, 6]
    let pre : List Receive := [(darwin.MACH_RCV_TOO_LARGE, data_frame)]
    (data_frame.header.msgh_id = 1 ∧ data_frame.size = p.length
        ∧ data_frame.payload = p ++ [0, 0])
    ∧ (let r1 := _frida_pipe_input_stream_read darwin example_backend 16
        (some { cancelled := true }) (pre ++ (0, data_frame) :: [])
      let count := if p.length = 0 then 1 else (p.length + 4 - 1) / 4
      let reads := read_repeat darwin (4 : Nat) none count r1.backend r1.mailbox
      (r1.n = some (-1) ∧ r1.error = some GError.cancelled ∧ r1.data = []
          ∧ r1.backend = with_pending example_backend data_frame 0 p.length
          ∧ r1.mailbox = [])
        ∧ reads.1 = (List.range count).map
            (fun i => (some ((min 4 (p.length - i * 4) : Nat) : Int), (p.drop (i * 4)).take 4))
        ∧ (reads.1.map Prod.snd).flatten = p
        ∧ reads.2 = (without_pending example_backend, [])
        ∧ (∀ j, j < count →
            (read_repeat darwin (4 : Nat) none j r1.backend r1.mailbox).2
                = (with_pending example_backend data_frame (j * 4) (p.length - j * 4), [])
              ∧ (_frida_pipe_input_stream_read darwin
                  (read_repeat darwin (4 : Nat) none j r1.backend r1.mailbox).2.1 (4 : Nat) none
                  (read_repeat darwin (4 : Nat) none j r1.backend r1.mailbox).2.2).calls = [])
        ∧ (∀ (frame : FridaPipeMessage) (length : Int) (any_token : Option GCancellable)
            (after : List Receive), frame.header.msgh_id = 2 →
            (_frida_pipe_input_stream_read darwin example_backend length any_token
                (pre ++ (0, frame) :: after)).backend.rx_buffer = none)
        ∧ (∀ (frame : FridaPipeMessage) (length : Int) (any_token : Option GCancellable)
            (after : List Receive), frame.header.msgh_id ≠ 1 →
            (_frida_pipe_input_stream_read darwin example_backend length any_token
                (pre ++ (0, frame) :: after)).backend.rx_buffer = none
              ∧ (_frida_pipe_input_stream_read darwin example_backend length any_token
                  (pre ++ (0, frame) :: after)).data = []
              ∧ (_frida_pipe_input_stream_read darwin example_backend length any_token
                  (pre ++ (0, frame) :: after)).mailbox = after)) :=
  ⟨⟨rfl, rfl, by decide⟩,
    no_data_loss_on_cancellation darwin example_backend 16 4 none
      [(darwin.MACH_RCV_TOO_LARGE,
        write_message darwin example_backend [1, 2, 3, 4, 5, 6] (fun _ => 0))] []
      (write_message darwin example_backend [1, 2, 3, 4, 5, 6] (fun _ => 0))
      [1, 2, 3, 4, 5, 6] [0, 0] rfl (by decide) (by simp) rfl rfl (by decide) (by decide)
      (by decide)⟩

end FridaPipe
